import Mathlib

/-!
# A shallow embedding of `Curl.c`

`Curl.c` is one `main` function: it reads its flags, splits the URL with two
`sscanf` calls, refuses `https`, resolves the host, opens a socket, connects,
assembles an HTTP/1.1 request in a fixed buffer, sends it, reads one chunk of
the answer and prints it.

Conventions of the embedding:

* a C string is the list of its characters before the terminating NUL
  (`CStr`); every `Char` stands for one byte.  Strings that reach the program
  through `argv` hold no NUL;
* the operating system (resolver, sockets, `errno` texts) is an explicit
  `Env` of outcomes, and everything `main` does to the outside is recorded, in
  order, as a list of `Event`s;
* `main` returns `none` where the C program has undefined behaviour (a write
  past the end of `request` or of `response`, a read of a buffer never written).
-/

namespace Curl

/-- A C string: the characters before the terminating NUL. -/
abbrev CStr := List Char

/-- The NUL character that ends a C string. -/
def NUL : Char := Char.ofNat 0

/-- Source line 10: `#define BUFFER_SIZE 10000`. -/
def BUFFER_SIZE : Nat := 10000

/-! ## libc helpers -/

/-- The C string held by `dst` after `strncpy(dst, src, n)` when `dst` has more
than `n` bytes and byte `n` of it is NUL (every destination in `main` is
zero-filled past its initialiser, and `n` is `sizeof dst - 1`): the first `n`
characters of `src`; `strncpy` pads the rest of the `n` bytes with NULs. -/
def strncpy (n : Nat) (src : CStr) : CStr := src.take n

/-- The text `printf("%s", buf)` prints for a byte buffer: the bytes before the
first NUL. -/
def cstr (buf : List Char) : CStr := buf.takeWhile (fun c => c != NUL)

/-- The text of `%d` and `%ld` for a non-negative value. -/
def decimal (n : Nat) : CStr := Nat.toDigits 10 n

/-- The C string left by `snprintf(buf, size, ...)` whose full text is `s`: at most
`size - 1` characters are kept. -/
def snprintf (size : Nat) (s : CStr) : CStr := s.take (size - 1)

/-- A write of the C string `s` (and its NUL) into a buffer of `cap` bytes:
`none` when it would run past the end of the buffer. -/
def fit (cap : Nat) (s : CStr) : Option CStr :=
  if s.length + 1 ≤ cap then some s else none

/-! ## `sscanf`, for the directives the two format strings use -/

/-- A directive of a `scanf` format: a literal (non-blank) character, or a
conversion `%w[^c]`, a run of at most `w` characters other than `c`. -/
inductive Directive where
  | lit (c : Char)
  | scanset (width : Nat) (excl : Char)
deriving DecidableEq, Repr

/-- The longest run of at most `w` leading characters other than `excl`, and the
input left after it. -/
def scanRun (excl : Char) : Nat → List Char → List Char × List Char
  | 0, inp => ([], inp)
  | _ + 1, [] => ([], [])
  | w + 1, c :: cs =>
    if c = excl then ([], c :: cs)
    else ((c :: (scanRun excl w cs).1), (scanRun excl w cs).2)

/-- What `sscanf` returns when the input ends before a directive is matched: `EOF`
(-1) if no conversion was done yet, the number done otherwise. -/
def inputFailure (acc : List CStr) : Int × List CStr :=
  (if acc = [] then -1 else (acc.length : Int), acc)

/-- The directives run in order over the input; `acc` holds the strings already
assigned.  The result is the return value of `sscanf` and the strings assigned,
in the order of the pointer arguments. -/
def sscanfAux : List Directive → List Char → List CStr → Int × List CStr
  | [], _, acc => ((acc.length : Int), acc)
  | Directive.lit _ :: _, [], acc => inputFailure acc
  | Directive.lit c :: ds, x :: xs, acc =>
    if x = c then sscanfAux ds xs acc else ((acc.length : Int), acc)
  | Directive.scanset _ _ :: _, [], acc => inputFailure acc
  | Directive.scanset w excl :: ds, x :: xs, acc =>
    if (scanRun excl w (x :: xs)).1 = [] then ((acc.length : Int), acc)
    else sscanfAux ds (scanRun excl w (x :: xs)).2 (acc ++ [(scanRun excl w (x :: xs)).1])

/-- The call `sscanf(input, fmt, ...)`. -/
def sscanf (input : CStr) (fmt : List Directive) : Int × List CStr :=
  sscanfAux fmt input []

/-- Source line 40: the format `"%5[^:]://%99[^/]"`. -/
def fmt2 : List Directive :=
  [Directive.scanset 5 ':', Directive.lit ':', Directive.lit '/', Directive.lit '/',
   Directive.scanset 99 '/']

/-- Source line 39: the format `"%5[^:]://%99[^/]/%99[^\n]"`. -/
def fmt3 : List Directive :=
  fmt2 ++ [Directive.lit '/', Directive.scanset 99 '\n']

/-! ## URL decomposition (source lines 35-44) -/

/-- The three buffers of line 36.  `protocol` and `host` are declared without an
initialiser (`none` until written); `path` starts as `"/"`. -/
structure UrlBufs where
  protocol : Option CStr
  host : Option CStr
  path : CStr
deriving DecidableEq, Repr

/-- The stores of `sscanf(url, fmt, protocol, host, path)`: the assigned strings
go, in order, to `protocol`, `host` and `path`; a buffer whose conversion was not
done is left as it was. -/
def store (b : UrlBufs) : List CStr → UrlBufs
  | [] => b
  | [p] => { b with protocol := some p }
  | [p, h] => { b with protocol := some p, host := some h }
  | p :: h :: q :: _ => { protocol := some p, host := some h, path := q }

/-- Source lines 36-44: the buffers after the two `sscanf` calls, or `none` when
the program reports a malformed URL (`return 2`). -/
def parseUrl (url : CStr) : Option UrlBufs :=
  let b0 : UrlBufs := { protocol := none, host := none, path := ['/'] }
  let r1 := sscanf url fmt3
  let b1 := store b0 r1.2
  if r1.1 ≠ 3 then
    let r2 := sscanf url fmt2
    let b2 := store b1 r2.2
    if r2.1 ≠ 2 then none else some b2
  else some b1

/-! ## Flags (source lines 18-33) -/

/-- The locals that the flag loop fills. -/
structure Config where
  method : CStr
  data : CStr
  content_type : CStr
  verbose : Bool
deriving DecidableEq, Repr

/-- Source lines 18-21: the initial values. -/
def defaultConfig : Config :=
  { method := "GET".toList, data := [], content_type := [], verbose := false }

/-- Source lines 23-33: the loop over `argv[2..]`.  A flag that takes a value and
stands last is skipped. -/
def parseFlags (c : Config) : List CStr → Config
  | [] => c
  | [a] => if a = "-v".toList then { c with verbose := true } else c
  | a :: v :: rest =>
    if a = "-v".toList then parseFlags { c with verbose := true } (v :: rest)
    else if a = "-X".toList then parseFlags { c with method := strncpy 9 v } rest
    else if a = "-d".toList then parseFlags { c with data := strncpy (BUFFER_SIZE - 1) v } rest
    else if a = "-H".toList then parseFlags { c with content_type := strncpy 99 v } rest
    else parseFlags c (v :: rest)

/-! ## Request construction (source lines 81-92) -/

/-- Source lines 81-92: the C string in `request` after the `sprintf` and `strcat`
calls, or `none` when one of them writes past the `BUFFER_SIZE` bytes. -/
def buildRequest (method path host data content_type : CStr) : Option CStr := do
  let r0 ← fit BUFFER_SIZE
    (method ++ " ".toList ++ path ++ " HTTP/1.1\r\nHost: ".toList ++ host ++ "\r\n".toList)
  let r1 ←
    if data.length > 0 then do
      let a ← fit BUFFER_SIZE
        (r0 ++ "Content-Length: ".toList ++ decimal data.length ++ "\r\n".toList)
      if content_type.length > 0 then
        fit BUFFER_SIZE (a ++ "Content-Type: ".toList ++ content_type ++ "\r\n".toList)
      else pure a
    else pure r0
  let r2 ← fit BUFFER_SIZE (r1 ++ "Connection: close\r\n\r\n".toList)
  if data.length > 0 then fit BUFFER_SIZE (r2 ++ data) else pure r2

/-! ## The collaborators and the run -/

/-- The outcomes of the system calls of one run. -/
structure Env where
  /-- Whether `getaddrinfo(host, port, ...)` returns 0. -/
  getaddrinfo : CStr → CStr → Bool
  /-- Whether `socket(...)` returns a descriptor. -/
  socketOk : Bool
  /-- Whether `connect(...)` returns 0. -/
  connectOk : Bool
  /-- The return value of `send`, given the bytes handed to it. -/
  sendRet : CStr → Int
  /-- The bytes the peer has for us, or `none` when `recv` returns -1. -/
  incoming : Option (List Char)
  /-- The text of `strerror(errno)` that `perror` prints. -/
  strerror : CStr
  /-- The text `gai_strerror` returns at line 63 (its argument there is `sockfd`,
  which has no value yet). -/
  gai_strerror : CStr
  /-- What the bytes of `response` hold when the array is declared, at line 100,
  without an initialiser: any value, by index. -/
  stack : Nat → Char

/-- What `main` does to the outside, in order: writes to the two streams and the
system calls with their outcomes. -/
inductive Event where
  | stdout (text : CStr)
  | stderr (text : CStr)
  | getaddrinfo (host port : CStr) (ok : Bool)
  | socket (ok : Bool)
  | connect (ok : Bool)
  | send (bytes : CStr) (ret : Int)
  | recv (cap : Nat) (result : Option (List Char))
  | close
  | freeaddrinfo
deriving DecidableEq, Repr

/-- A finished run: its events and the value `main` returns. -/
structure Run where
  trace : List Event
  exit : Nat
deriving DecidableEq, Repr

/-- The call `recv(sockfd, response, cap, 0)`: at most `cap` of the incoming bytes. -/
def recv (env : Env) (cap : Nat) : Option (List Char) :=
  env.incoming.map (fun bs => bs.take cap)

/-- The lines `perror(tag)` writes to the error stream. -/
def perror (env : Env) (tag : CStr) : Event :=
  Event.stderr (tag ++ ": ".toList ++ env.strerror ++ "\n".toList)

/-- A `char` array: its size and the value of each of its bytes, by index. -/
structure Buffer where
  size : Nat
  byte : Nat → Char

/-- Source line 100: `char response[BUFFER_SIZE];`, whose bytes hold what the stack
held. -/
def declared (env : Env) (size : Nat) : Buffer :=
  { size := size, byte := env.stack }

/-- Source line 101: what `recv` does to the buffer it is given, storing the bytes it
returns at the start; `none` when they do not fit in it. -/
def storeReceived (buf : Buffer) (bytes : List Char) : Option Buffer :=
  if bytes.length ≤ buf.size then
    some { buf with byte := fun i => bytes.getD i (buf.byte i) }
  else none

/-- An assignment `buf[i] = '\0'`, as at source line 109; `none` when the index lies
outside the array. -/
def terminate (buf : Buffer) (i : Nat) : Option Buffer :=
  if i < buf.size then some { buf with byte := fun j => if j = i then NUL else buf.byte j }
  else none

/-- The bytes from index `i` up to the first NUL, reading at most `fuel` bytes; `none`
when there is no NUL among them. -/
def readCStr (byte : Nat → Char) : Nat → Nat → Option CStr
  | 0, _ => none
  | fuel + 1, i =>
    if byte i = NUL then some []
    else (readCStr byte fuel (i + 1)).map (fun text => byte i :: text)

/-- The text `printf("%s", buf)` prints for an array: its bytes before the first NUL;
`none` when the array holds no NUL, the read then running past its end. -/
def printfS (buf : Buffer) : Option CStr :=
  readCStr buf.byte buf.size 0

/-- Source lines 100, 101 and 109: the array `response` after `recv` has returned
`bytes` and the terminator has been written at index `received`, the number of bytes
returned. -/
def response (env : Env) (bytes : List Char) : Option Buffer :=
  (storeReceived (declared env BUFFER_SIZE) bytes).bind
    (fun buf => terminate buf bytes.length)

/-- Source lines 94-96: the echo of the request in verbose mode. -/
def echo (verbose : Bool) (request : CStr) : List Event :=
  if verbose then [Event.stdout ("Sending request:\n".toList ++ request ++ "\n".toList)]
  else []

/-- Source lines 81-114: the run from request construction on, the socket being
connected; `pre` holds the events so far.  The value `send` returns is not looked
at.  There is no result when a write to `response` or the read of `printf` leaves
the array. -/
def exchange (env : Env) (c : Config) (path host : CStr) (pre : List Event) : Option Run :=
  match buildRequest c.method path host c.data c.content_type with
  | none => none
  | some request =>
    let received := recv env (BUFFER_SIZE - 1)
    let sent : List Event :=
      pre ++ echo c.verbose request ++ [Event.send request (env.sendRet request),
        Event.recv (BUFFER_SIZE - 1) received]
    match received with
    | none =>
      some { trace := sent ++ [perror env "recv".toList, Event.close, Event.freeaddrinfo],
             exit := 7 }
    | some bytes =>
      match response env bytes with
      | none => none
      | some buf =>
        match printfS buf with
        | none => none
        | some text =>
          some { trace := sent ++ [Event.stdout text, Event.close, Event.freeaddrinfo],
                 exit := 0 }

/-- Source lines 46-79: scheme check, resolution, socket and connect, then the
exchange. -/
def transport (env : Env) (c : Config) (protocol host path : CStr) : Option Run :=
  let port : Nat := if protocol = "https".toList then 443 else 80
  if protocol = "https".toList then
    some { trace := [Event.stderr "HTTPS is not supported in this version.\n".toList],
           exit := 3 }
  else
    let port_str := snprintf 6 (decimal port)
    if env.getaddrinfo host port_str = false then
      some { trace := [Event.getaddrinfo host port_str false,
                       Event.stderr ("getaddrinfo: ".toList ++ env.gai_strerror ++ "\n".toList)],
             exit := 4 }
    else if env.socketOk = false then
      some { trace := [Event.getaddrinfo host port_str true, Event.socket false,
                       perror env "socket".toList, Event.freeaddrinfo],
             exit := 5 }
    else if env.connectOk = false then
      some { trace := [Event.getaddrinfo host port_str true, Event.socket true,
                       Event.connect false, perror env "connect".toList, Event.close,
                       Event.freeaddrinfo],
             exit := 6 }
    else
      exchange env c path host
        [Event.getaddrinfo host port_str true, Event.socket true, Event.connect true]

/-- The function `main` of `Curl.c`, on `argv` (its length is `argc`).  With an
empty `argv` the usage line would print `argv[0]`, a null pointer: no defined
behaviour.  After a successful decomposition `protocol` and `host` are both
written (`parseUrl_written`), so the last branch is never taken. -/
def main (env : Env) (argv : List CStr) : Option Run :=
  match argv with
  | [] => none
  | [prog] =>
    some { trace := [Event.stdout ("Usage: ".toList ++ prog ++ " <URL>\n".toList)], exit := 1 }
  | _ :: url :: flags =>
    let c := parseFlags defaultConfig flags
    match parseUrl url with
    | none =>
      some { trace := [Event.stderr ("Error parsing URL: ".toList ++ url ++ "\n".toList)],
             exit := 2 }
    | some b =>
      match b.protocol, b.host with
      | some protocol, some host => transport env c protocol host b.path
      | _, _ => none

/-! ## Vocabulary of the properties -/

/-- Whether an event is a system call (not a write to a stream). -/
def Event.isCall : Event → Bool
  | Event.stdout _ => false
  | Event.stderr _ => false
  | _ => true

/-- The stages of the transport that call a collaborator. -/
inductive Stage where
  | resolve
  | socket
  | connect
  | send
  | recv
deriving DecidableEq, Repr

/-- The stage an event belongs to; stream writes and the two releases belong to
none. -/
def Event.stage : Event → Option Stage
  | Event.getaddrinfo _ _ _ => some Stage.resolve
  | Event.socket _ => some Stage.socket
  | Event.connect _ => some Stage.connect
  | Event.send _ _ => some Stage.send
  | Event.recv _ _ => some Stage.recv
  | _ => none

/-- The stages a run went through, in order. -/
def stagesOf (t : List Event) : List Stage := t.filterMap Event.stage

/-- Everything written to standard output, in order. -/
def stdoutOf : List Event → List Char
  | [] => []
  | Event.stdout text :: t => text ++ stdoutOf t
  | _ :: t => stdoutOf t

/-- The byte strings handed to `send`, in order. -/
def sentOf : List Event → List CStr
  | [] => []
  | Event.send bytes _ :: t => bytes :: sentOf t
  | _ :: t => sentOf t

/-- Whether an event is a `socket` call that returned a descriptor. -/
def Event.opensSocket : Event → Bool
  | Event.socket true => true
  | _ => false

/-- Whether an event is a `getaddrinfo` call that returned an address record. -/
def Event.resolves : Event → Bool
  | Event.getaddrinfo _ _ true => true
  | _ => false

/-- The scheme the decomposition of `url` yields, if it succeeds. -/
def schemeOf (url : CStr) : Option CStr := (parseUrl url).bind (fun b => b.protocol)

/-- The host the decomposition of `url` yields (empty if it fails). -/
def hostOf (url : CStr) : CStr := ((parseUrl url).bind (fun b => b.host)).getD []

/-- The path the decomposition of `url` yields (empty if it fails). -/
def pathOf (url : CStr) : CStr := ((parseUrl url).map (fun b => b.path)).getD []

/-- The exit code the specification assigns, written from its words and not from
the code: the code of the first stage that fails, 2 malformed URL, else 3 `https`,
else 4 resolution, else 5 socket creation, else 6 connect, else 7 receive, else 0.
`exit_code_first_failure` compares it with what `main` returns. -/
def firstFailure (env : Env) (url : CStr) : Nat :=
  if parseUrl url = none then 2
  else if schemeOf url = some "https".toList then 3
  else if env.getaddrinfo (hostOf url) "80".toList = false then 4
  else if env.socketOk = false then 5
  else if env.connectOk = false then 6
  else if env.incoming = none then 7
  else 0

/-- The stages the specification lets a run go through when it ends with the given
exit code, written from its words: those up to and including the failing one, all
five for a receive failure and for success. -/
def stagesUpTo : Nat → List Stage
  | 1 => []
  | 2 => []
  | 3 => []
  | 4 => [Stage.resolve]
  | 5 => [Stage.resolve, Stage.socket]
  | 6 => [Stage.resolve, Stage.socket, Stage.connect]
  | _ => [Stage.resolve, Stage.socket, Stage.connect, Stage.send, Stage.recv]

/-- Whether the run on `url` gets a connected socket, so that it goes on to build
the request. -/
def connects (env : Env) (url : CStr) : Bool :=
  (parseUrl url).isSome && !(schemeOf url = some "https".toList) &&
    env.getaddrinfo (hostOf url) "80".toList && env.socketOk && env.connectOk

/-- The request the run on `url` with `flags` assembles, `none` if it does not fit
the buffer. -/
def requestOf (url : CStr) (flags : List CStr) : Option CStr :=
  buildRequest (parseFlags defaultConfig flags).method (pathOf url) (hostOf url)
    (parseFlags defaultConfig flags).data (parseFlags defaultConfig flags).content_type

/-- The number a string of decimal digits stands for. -/
def decimalValue (s : CStr) : Nat :=
  s.foldl (fun a c => 10 * a + (c.toNat - 48)) 0

/-! ## Concrete collaborators and command lines -/

/-- A stub server: every call succeeds and the peer answers
`"HTTP/1.1 200 OK\r\n\r\nOK"`. -/
def stubServer : Env :=
  { getaddrinfo := fun _ _ => true, socketOk := true, connectOk := true,
    sendRet := fun bytes => (bytes.length : Int),
    incoming := some "HTTP/1.1 200 OK\r\n\r\nOK".toList,
    strerror := "Connection refused".toList, gai_strerror := "Unknown error".toList,
    stack := fun _ => 'x' }

/-- The stub server, with a `send` that reports an error (-1). -/
def brokenSend : Env := { stubServer with sendRet := fun _ => -1 }

/-- The stub server, with a peer whose answer holds a zero byte. -/
def binaryPeer : Env := { stubServer with incoming := some ['a', NUL, 'b'] }

/-- The command line `client http://example.com/foo -X POST -d "hello" -H "text/plain"`. -/
def postFoo : List CStr :=
  ["client".toList, "http://example.com/foo".toList, "-X".toList, "POST".toList,
   "-d".toList, "hello".toList, "-H".toList, "text/plain".toList]

/-- The command line `client http://example.com`. -/
def plainGet : List CStr := ["client".toList, "http://example.com".toList]

/-! ## Vocabulary of the later properties -/

/-- Everything written to the error stream, in order. -/
def stderrOf : List Event → List Char
  | [] => []
  | Event.stderr text :: t => text ++ stderrOf t
  | _ :: t => stderrOf t

/-- The request the specification describes, written from its words: the request
line and the `Host` header; if the body is not empty a `Content-Length` header
and, if the content type is not empty either, a `Content-Type` header; always
`Connection: close` and the blank line; then the body. -/
def specRequest (method path host body contentType : CStr) : CStr :=
  method ++ " ".toList ++ path ++ " HTTP/1.1\r\nHost: ".toList ++ host ++ "\r\n".toList
    ++ (if body = [] then [] else "Content-Length: ".toList ++ decimal body.length ++ "\r\n".toList)
    ++ (if body = [] ∨ contentType = [] then []
        else "Content-Type: ".toList ++ contentType ++ "\r\n".toList)
    ++ "Connection: close\r\n\r\n".toList ++ body

/-- The command line `client http://h -d aaa...a`, with a body of 9,999 bytes, the
most the `data` buffer holds. -/
def longBody : List CStr :=
  ["client".toList, "http://h".toList, "-d".toList, List.replicate 9999 'a']

/-- The failure points of a run, as the interface section of the specification
lists them. -/
inductive FailurePoint where
  | missingUrl
  | malformedUrl
  | unsupportedScheme
  | dnsResolution
  | socketCreation
  | connectFailed
  | recvFailed
deriving DecidableEq, Repr

/-- The exit code the specification gives each failure point; 0 stands for success. -/
def exitOf : Option FailurePoint → Nat
  | none => 0
  | some FailurePoint.missingUrl => 1
  | some FailurePoint.malformedUrl => 2
  | some FailurePoint.unsupportedScheme => 3
  | some FailurePoint.dnsResolution => 4
  | some FailurePoint.socketCreation => 5
  | some FailurePoint.connectFailed => 6
  | some FailurePoint.recvFailed => 7

/-- The point at which the run on `argv` fails, written from the conditions of the
specification: the first stage that fails, `none` when none does. -/
def failurePoint (env : Env) : List CStr → Option FailurePoint
  | [] => none
  | [_] => some FailurePoint.missingUrl
  | _ :: url :: _ =>
    if parseUrl url = none then some FailurePoint.malformedUrl
    else if schemeOf url = some "https".toList then some FailurePoint.unsupportedScheme
    else if env.getaddrinfo (hostOf url) "80".toList = false then some FailurePoint.dnsResolution
    else if env.socketOk = false then some FailurePoint.socketCreation
    else if env.connectOk = false then some FailurePoint.connectFailed
    else if env.incoming = none then some FailurePoint.recvFailed
    else none

/-- The command line `client`, without a URL. -/
def noUrl : List CStr := ["client".toList]

/-- The stub server, with a resolver that fails. -/
def noResolver : Env := { stubServer with getaddrinfo := fun _ _ => false }

/-! ## Header lines of a request -/

theorem scanRun_nil (excl : Char) (w : Nat) : scanRun excl w [] = ([], []) := by
  cases w <;> rfl

/-- A run stops in front of the excluded character. -/
theorem scanRun_stop (excl : Char) (a rest : List Char) :
    ∀ w, a.length ≤ w → (∀ c ∈ a, c ≠ excl) →
      scanRun excl w (a ++ excl :: rest) = (a, excl :: rest) := by
  induction a with
  | nil =>
    intro w _ _
    cases w <;> simp [scanRun]
  | cons x xs ih =>
    intro w hw hx
    cases w with
    | zero => simp at hw
    | succ w =>
      have hxe : x ≠ excl := hx x (by simp)
      have hrec := ih w (by simpa using hw) (fun c hc => hx c (by simp [hc]))
      simp [scanRun, hxe, hrec]

/-- A run takes the whole input when it is short enough and free of the excluded
character. -/
theorem scanRun_all (excl : Char) (a : List Char) :
    ∀ w, a.length ≤ w → (∀ c ∈ a, c ≠ excl) → scanRun excl w a = (a, []) := by
  induction a with
  | nil => intro w _ _; exact scanRun_nil excl w
  | cons x xs ih =>
    intro w hw hx
    cases w with
    | zero => simp at hw
    | succ w =>
      have hxe : x ≠ excl := hx x (by simp)
      have hrec := ih w (by simpa using hw) (fun c hc => hx c (by simp [hc]))
      simp [scanRun, hxe, hrec]

/-- The run and the rest make up the input. -/
theorem scanRun_append (excl : Char) : ∀ (w : Nat) (inp : List Char),
    (scanRun excl w inp).1 ++ (scanRun excl w inp).2 = inp := by
  intro w
  induction w with
  | zero => intro inp; simp [scanRun]
  | succ w ih =>
    intro inp
    cases inp with
    | nil => simp [scanRun]
    | cons c cs =>
      by_cases h : c = excl
      · simp [scanRun, h]
      · simp [scanRun, h, ih cs]

/-- A run is at most `w` characters long. -/
theorem scanRun_length (excl : Char) : ∀ (w : Nat) (inp : List Char),
    (scanRun excl w inp).1.length ≤ w := by
  intro w
  induction w with
  | zero => intro inp; simp [scanRun]
  | succ w ih =>
    intro inp
    cases inp with
    | nil => simp [scanRun]
    | cons c cs =>
      by_cases h : c = excl
      · simp [scanRun, h]
      · simpa [scanRun, h] using ih cs

/-- A conversion whose run is not empty is done, and the scan goes on behind it. -/
theorem sscanfAux_scanset (w : Nat) (excl : Char) (ds : List Directive) (inp : List Char)
    (acc : List CStr) (h : (scanRun excl w inp).1 ≠ []) :
    sscanfAux (Directive.scanset w excl :: ds) inp acc
      = sscanfAux ds (scanRun excl w inp).2 (acc ++ [(scanRun excl w inp).1]) := by
  cases inp with
  | nil => simp [scanRun_nil] at h
  | cons x xs => simp [sscanfAux, h]

theorem sscanfAux_lit (c : Char) (ds : List Directive) (inp : List Char) (acc : List CStr) :
    sscanfAux (Directive.lit c :: ds) (c :: inp) acc = sscanfAux ds inp acc := by
  simp [sscanfAux]

/-- The scheme, the separator and the host are matched by the common head of both
formats. -/
theorem sscanfAux_head (s h rest : List Char) (ds : List Directive)
    (hs1 : s ≠ []) (hs5 : s.length ≤ 5) (hs : ∀ c ∈ s, c ≠ ':')
    (hh1 : h ≠ []) (hh99 : h.length ≤ 99) (hh : ∀ c ∈ h, c ≠ '/')
    (hrest : rest = [] ∨ ∃ t, rest = '/' :: t) :
    sscanfAux (fmt2 ++ ds) (s ++ "://".toList ++ h ++ rest) []
      = sscanfAux ds rest [s, h] := by
  have e1 : scanRun ':' 5 (s ++ "://".toList ++ h ++ rest)
      = (s, ':' :: ('/' :: '/' :: (h ++ rest))) := by
    have := scanRun_stop ':' s ('/' :: '/' :: (h ++ rest)) 5 hs5 hs
    simpa using this
  have e2 : scanRun '/' 99 (h ++ rest) = (h, rest) := by
    rcases hrest with rfl | ⟨t, rfl⟩
    · simpa using scanRun_all '/' h 99 hh99 hh
    · exact scanRun_stop '/' h t 99 hh99 hh
  simp only [fmt2, List.cons_append, List.nil_append]
  rw [sscanfAux_scanset _ _ _ _ _ (by rw [e1]; exact hs1), e1]
  simp only [sscanfAux_lit, List.nil_append]
  rw [sscanfAux_scanset _ _ _ _ _ (by rw [e2]; exact hh1), e2]
  rfl

theorem sscanf_fmt3_full (s h p : List Char)
    (hs1 : s ≠ []) (hs5 : s.length ≤ 5) (hs : ∀ c ∈ s, c ≠ ':')
    (hh1 : h ≠ []) (hh99 : h.length ≤ 99) (hh : ∀ c ∈ h, c ≠ '/')
    (hp1 : p ≠ []) (hp99 : p.length ≤ 99) (hp : ∀ c ∈ p, c ≠ '\n') :
    sscanf (s ++ "://".toList ++ h ++ "/".toList ++ p) fmt3 = (3, [s, h, p]) := by
  have e3 : scanRun '\n' 99 p = (p, []) := scanRun_all '\n' p 99 hp99 hp
  have hd := sscanfAux_head s h ('/' :: p) [Directive.lit '/', Directive.scanset 99 '\n']
    hs1 hs5 hs hh1 hh99 hh (Or.inr ⟨p, rfl⟩)
  have hurl : s ++ "://".toList ++ h ++ "/".toList ++ p = s ++ "://".toList ++ h ++ '/' :: p := by
    simp
  rw [sscanf, fmt3, hurl, hd, sscanfAux_lit,
    sscanfAux_scanset _ _ _ _ _ (by rw [e3]; exact hp1), e3]
  rfl

theorem sscanf_fmt3_short (s h : List Char)
    (hs1 : s ≠ []) (hs5 : s.length ≤ 5) (hs : ∀ c ∈ s, c ≠ ':')
    (hh1 : h ≠ []) (hh99 : h.length ≤ 99) (hh : ∀ c ∈ h, c ≠ '/') :
    sscanf (s ++ "://".toList ++ h) fmt3 = (2, [s, h]) := by
  have hd := sscanfAux_head s h [] [Directive.lit '/', Directive.scanset 99 '\n']
    hs1 hs5 hs hh1 hh99 hh (Or.inl rfl)
  rw [List.append_nil] at hd
  rw [sscanf, fmt3, hd]
  rfl

theorem sscanf_fmt2_short (s h : List Char)
    (hs1 : s ≠ []) (hs5 : s.length ≤ 5) (hs : ∀ c ∈ s, c ≠ ':')
    (hh1 : h ≠ []) (hh99 : h.length ≤ 99) (hh : ∀ c ∈ h, c ≠ '/') :
    sscanf (s ++ "://".toList ++ h) fmt2 = (2, [s, h]) := by
  have hd := sscanfAux_head s h [] [] hs1 hs5 hs hh1 hh99 hh (Or.inl rfl)
  rw [List.append_nil, List.append_nil] at hd
  rw [sscanf, hd]
  rfl

theorem ne_nil_of_one_le {l : List Char} (h : 1 ≤ l.length) : l ≠ [] := by
  intro e
  simp [e] at h

/-- Claim C1: a URL `s://h/p` with `s` of 1 to 5 characters other than `:`, `h` of 1
to 99 characters other than `/` and `p` of 1 to 99 characters other than newline
decomposes into exactly scheme `s`, host `h` and path `p`; the URL `s://h`, with
nothing after the host, decomposes into `s`, `h` and the default path `"/"`. -/
theorem url_decomposition (s h : List Char)
    (hs1 : 1 ≤ s.length) (hs5 : s.length ≤ 5) (hs : ∀ c ∈ s, c ≠ ':')
    (hh1 : 1 ≤ h.length) (hh99 : h.length ≤ 99) (hh : ∀ c ∈ h, c ≠ '/') :
    (∀ p : List Char, 1 ≤ p.length → p.length ≤ 99 → (∀ c ∈ p, c ≠ '\n') →
      parseUrl (s ++ "://".toList ++ h ++ "/".toList ++ p)
        = some { protocol := some s, host := some h, path := p }) ∧
    parseUrl (s ++ "://".toList ++ h)
      = some { protocol := some s, host := some h, path := "/".toList } := by
  have hs0 := ne_nil_of_one_le hs1
  have hh0 := ne_nil_of_one_le hh1
  constructor
  · intro p hp1 hp99 hp
    have e := sscanf_fmt3_full s h p hs0 hs5 hs hh0 hh99 hh (ne_nil_of_one_le hp1) hp99 hp
    simp only [parseUrl, e]
    simp [store]
  · have e3 := sscanf_fmt3_short s h hs0 hs5 hs hh0 hh99 hh
    have e2 := sscanf_fmt2_short s h hs0 hs5 hs hh0 hh99 hh
    simp only [parseUrl, e3, e2]
    simp [store]

theorem url_decomposition_witness :
    parseUrl ("http".toList ++ "://".toList ++ "example.com".toList ++ "/".toList ++ "foo".toList)
        = some { protocol := some "http".toList, host := some "example.com".toList,
                 path := "foo".toList } ∧
    parseUrl ("http".toList ++ "://".toList ++ "example.com".toList)
      = some { protocol := some "http".toList, host := some "example.com".toList,
               path := "/".toList } :=
  ⟨(url_decomposition "http".toList "example.com".toList (by decide) (by decide) (by decide)
      (by decide) (by decide) (by decide)).1 "foo".toList (by decide) (by decide) (by decide),
   (url_decomposition "http".toList "example.com".toList (by decide) (by decide) (by decide)
      (by decide) (by decide) (by decide)).2⟩

/-- Without `"://"` in the input, the common head of both formats assigns at most
the scheme. -/
theorem sscanfAux_no_separator (url : List Char) (ds : List Directive)
    (hno : ¬ ("://".toList <:+: url)) :
    (sscanfAux (Directive.scanset 5 ':' :: Directive.lit ':' :: Directive.lit '/' ::
      Directive.lit '/' :: ds) url []).1 ≤ 1 := by
  by_cases hm : (scanRun ':' 5 url).1 = []
  · cases url with
    | nil => simp [sscanfAux, inputFailure]
    | cons x xs => simp [sscanfAux, hm]
  · rw [sscanfAux_scanset _ _ _ _ _ hm]
    have happ := scanRun_append ':' 5 url
    generalize (scanRun ':' 5 url).1 = m at happ
    generalize (scanRun ':' 5 url).2 = r at happ
    rcases r with _ | ⟨y, _ | ⟨z, _ | ⟨u, us⟩⟩⟩
    · simp [sscanfAux, inputFailure]
    · by_cases hy : y = ':' <;> simp [sscanfAux, inputFailure, hy]
    · by_cases hy : y = ':' <;> by_cases hz : z = '/' <;>
        simp [sscanfAux, inputFailure, hy, hz]
    · by_cases hy : y = ':'
      · by_cases hz : z = '/'
        · by_cases hu : u = '/'
          · exfalso
            apply hno
            refine ⟨m, us, ?_⟩
            rw [← happ, hy, hz, hu]
            simp
          · simp [sscanfAux, hy, hz, hu]
        · simp [sscanfAux, hy, hz]
      · simp [sscanfAux, hy]

/-- Without `"://"` in the URL both `sscanf` calls fall short. -/
theorem parseUrl_no_separator (url : List Char) (hno : ¬ ("://".toList <:+: url)) :
    parseUrl url = none := by
  have h3 : (sscanf url fmt3).1 ≤ 1 := sscanfAux_no_separator url _ hno
  have h2 : (sscanf url fmt2).1 ≤ 1 := sscanfAux_no_separator url _ hno
  have n3 : (sscanf url fmt3).1 ≠ 3 := by omega
  have n2 : (sscanf url fmt2).1 ≠ 2 := by omega
  simp [parseUrl, n3, n2]

/-- Claim C2: for a URL that does not contain `"://"` the decomposition fails, and the
run writes the parse error to the error stream and returns 2 without a single system
call (no resolve, socket, connect, send or recv). -/
theorem malformed_url_exit_2 (env : Env) (prog url : CStr) (flags : List CStr)
    (hno : ¬ ("://".toList <:+: url)) :
    parseUrl url = none ∧
    main env (prog :: url :: flags)
      = some { trace := [Event.stderr ("Error parsing URL: ".toList ++ url ++ "\n".toList)],
               exit := 2 } ∧
    ∀ r, main env (prog :: url :: flags) = some r →
      r.exit = 2 ∧ ∀ e ∈ r.trace, e.isCall = false := by
  have hp := parseUrl_no_separator url hno
  have hm : main env (prog :: url :: flags)
      = some { trace := [Event.stderr ("Error parsing URL: ".toList ++ url ++ "\n".toList)],
               exit := 2 } := by
    simp only [main, hp]
  refine ⟨hp, hm, ?_⟩
  intro r hr
  rw [hm] at hr
  cases hr
  simp [Event.isCall]

theorem malformed_url_exit_2_witness :
    ¬ ("://".toList <:+: "example.com/x".toList) ∧
    parseUrl "example.com/x".toList = none ∧
    main stubServer ["client".toList, "example.com/x".toList, "-v".toList]
      = some { trace := [Event.stderr "Error parsing URL: example.com/x\n".toList],
               exit := 2 } :=
  ⟨by decide,
   (malformed_url_exit_2 stubServer "client".toList "example.com/x".toList ["-v".toList]
      (by decide)).1,
   (malformed_url_exit_2 stubServer "client".toList "example.com/x".toList ["-v".toList]
      (by decide)).2.1⟩

theorem fit_of_le {cap : Nat} {s : CStr} (h : s.length + 1 ≤ cap) : fit cap s = some s := by
  simp [fit, h]

/-- Claim C3: with an empty body, for a method of at most 9 bytes and a path and a
host of at most 99 bytes (whatever the content type), the request built is exactly
`M ++ " " ++ P ++ " HTTP/1.1\r\nHost: " ++ H ++ "\r\nConnection: close\r\n\r\n"`. -/
theorem request_empty_body (M P H T : CStr)
    (hM : M.length ≤ 9) (hP : P.length ≤ 99) (hH : H.length ≤ 99) :
    buildRequest M P H [] T
      = some (M ++ " ".toList ++ P ++ " HTTP/1.1\r\nHost: ".toList ++ H
               ++ "\r\nConnection: close\r\n\r\n".toList) := by
  have l1 : " ".toList.length = 1 := rfl
  have l2 : " HTTP/1.1\r\nHost: ".toList.length = 17 := rfl
  have l3 : "\r\n".toList.length = 2 := rfl
  have l4 : "Connection: close\r\n\r\n".toList.length = 21 := rfl
  have f0 : fit BUFFER_SIZE
      (M ++ " ".toList ++ P ++ " HTTP/1.1\r\nHost: ".toList ++ H ++ "\r\n".toList)
      = some (M ++ " ".toList ++ P ++ " HTTP/1.1\r\nHost: ".toList ++ H ++ "\r\n".toList) := by
    apply fit_of_le
    simp only [List.length_append, l1, l2, l3, BUFFER_SIZE]
    omega
  have f2 : fit BUFFER_SIZE
      (M ++ " ".toList ++ P ++ " HTTP/1.1\r\nHost: ".toList ++ H ++ "\r\n".toList
        ++ "Connection: close\r\n\r\n".toList)
      = some (M ++ " ".toList ++ P ++ " HTTP/1.1\r\nHost: ".toList ++ H ++ "\r\n".toList
        ++ "Connection: close\r\n\r\n".toList) := by
    apply fit_of_le
    simp only [List.length_append, l1, l2, l3, l4, BUFFER_SIZE]
    omega
  have hsplit : "\r\nConnection: close\r\n\r\n".toList
      = "\r\n".toList ++ "Connection: close\r\n\r\n".toList := rfl
  simp only [buildRequest, List.length_nil, gt_iff_lt, lt_self_iff_false, if_false,
    bind, Option.bind, pure, f0, f2]
  rw [hsplit]
  simp only [List.append_assoc]

theorem request_empty_body_witness :
    buildRequest "GET".toList "/".toList "example.com".toList [] "text/plain".toList
      = some "GET / HTTP/1.1\r\nHost: example.com\r\nConnection: close\r\n\r\n".toList :=
  request_empty_body "GET".toList "/".toList "example.com".toList "text/plain".toList
    (by decide) (by decide) (by decide)

theorem digitChar_value (k : Nat) (hk : k < 10) : (Nat.digitChar k).toNat - 48 = k := by
  interval_cases k <;> rfl

theorem toDigitsCore_acc (fuel : Nat) : ∀ (n : Nat) (ds : List Char),
    Nat.toDigitsCore 10 fuel n ds = Nat.toDigitsCore 10 fuel n [] ++ ds := by
  induction fuel with
  | zero => intro n ds; simp [Nat.toDigitsCore]
  | succ f ih =>
    intro n ds
    simp only [Nat.toDigitsCore]
    by_cases h : n / 10 = 0
    · simp [h]
    · simp only [h, if_false]
      rw [ih (n / 10) (Nat.digitChar (n % 10) :: ds), ih (n / 10) [Nat.digitChar (n % 10)]]
      simp

theorem decimalValue_snoc (s : CStr) (c : Char) :
    decimalValue (s ++ [c]) = 10 * decimalValue s + (c.toNat - 48) := by
  simp [decimalValue, List.foldl_append]

theorem decimalValue_toDigitsCore (fuel : Nat) : ∀ n : Nat, n < fuel →
    decimalValue (Nat.toDigitsCore 10 fuel n []) = n := by
  induction fuel with
  | zero => intro n h; omega
  | succ f ih =>
    intro n hn
    simp only [Nat.toDigitsCore]
    have hd := digitChar_value (n % 10) (Nat.mod_lt n (by decide))
    by_cases h : n / 10 = 0
    · simp only [h, if_true]
      have : decimalValue [Nat.digitChar (n % 10)] = (Nat.digitChar (n % 10)).toNat - 48 := by
        simp [decimalValue]
      rw [this, hd]
      omega
    · simp only [h, if_false]
      rw [toDigitsCore_acc, decimalValue_snoc, hd, ih (n / 10) (by omega)]
      omega

/-- The text of `%ld` reads back as the number printed. -/
theorem decimalValue_decimal (n : Nat) : decimalValue (decimal n) = n :=
  decimalValue_toDigitsCore (n + 1) n (Nat.lt_succ_self n)

/-- Claim C4: with a non-empty body `B` and a non-empty content type `T`, when the
whole request is at most 9,999 bytes long, the request built is the request line, the
`Host` header, `Content-Length: n` with `n` the decimal text of the length of `B`
(it reads back as that length), `Content-Type: T`, the `Connection: close` header
and the blank line, and then `B` as the last bytes. -/
theorem request_with_body (M P H B T : CStr) (hB : B ≠ []) (hT : T ≠ [])
    (hlen : (M ++ " ".toList ++ P ++ " HTTP/1.1\r\nHost: ".toList ++ H ++ "\r\n".toList
        ++ "Content-Length: ".toList ++ decimal B.length ++ "\r\n".toList
        ++ "Content-Type: ".toList ++ T ++ "\r\n".toList
        ++ "Connection: close\r\n\r\n".toList ++ B).length ≤ BUFFER_SIZE - 1) :
    buildRequest M P H B T
      = some (M ++ " ".toList ++ P ++ " HTTP/1.1\r\nHost: ".toList ++ H ++ "\r\n".toList
        ++ "Content-Length: ".toList ++ decimal B.length ++ "\r\n".toList
        ++ "Content-Type: ".toList ++ T ++ "\r\n".toList
        ++ "Connection: close\r\n\r\n".toList ++ B) ∧
    decimalValue (decimal B.length) = B.length := by
  refine ⟨?_, decimalValue_decimal _⟩
  have hBl : 0 < B.length := List.length_pos.mpr hB
  have hTl : 0 < T.length := List.length_pos.mpr hT
  simp only [List.length_append, BUFFER_SIZE] at hlen
  have f0 : fit BUFFER_SIZE
      (M ++ " ".toList ++ P ++ " HTTP/1.1\r\nHost: ".toList ++ H ++ "\r\n".toList)
      = some (M ++ " ".toList ++ P ++ " HTTP/1.1\r\nHost: ".toList ++ H ++ "\r\n".toList) := by
    apply fit_of_le
    simp only [List.length_append, BUFFER_SIZE]
    omega
  have f1 : fit BUFFER_SIZE
      (M ++ " ".toList ++ P ++ " HTTP/1.1\r\nHost: ".toList ++ H ++ "\r\n".toList
        ++ "Content-Length: ".toList ++ decimal B.length ++ "\r\n".toList)
      = some (M ++ " ".toList ++ P ++ " HTTP/1.1\r\nHost: ".toList ++ H ++ "\r\n".toList
        ++ "Content-Length: ".toList ++ decimal B.length ++ "\r\n".toList) := by
    apply fit_of_le
    simp only [List.length_append, BUFFER_SIZE]
    omega
  have f2 : fit BUFFER_SIZE
      (M ++ " ".toList ++ P ++ " HTTP/1.1\r\nHost: ".toList ++ H ++ "\r\n".toList
        ++ "Content-Length: ".toList ++ decimal B.length ++ "\r\n".toList
        ++ "Content-Type: ".toList ++ T ++ "\r\n".toList)
      = some (M ++ " ".toList ++ P ++ " HTTP/1.1\r\nHost: ".toList ++ H ++ "\r\n".toList
        ++ "Content-Length: ".toList ++ decimal B.length ++ "\r\n".toList
        ++ "Content-Type: ".toList ++ T ++ "\r\n".toList) := by
    apply fit_of_le
    simp only [List.length_append, BUFFER_SIZE]
    omega
  have f3 : fit BUFFER_SIZE
      (M ++ " ".toList ++ P ++ " HTTP/1.1\r\nHost: ".toList ++ H ++ "\r\n".toList
        ++ "Content-Length: ".toList ++ decimal B.length ++ "\r\n".toList
        ++ "Content-Type: ".toList ++ T ++ "\r\n".toList
        ++ "Connection: close\r\n\r\n".toList)
      = some (M ++ " ".toList ++ P ++ " HTTP/1.1\r\nHost: ".toList ++ H ++ "\r\n".toList
        ++ "Content-Length: ".toList ++ decimal B.length ++ "\r\n".toList
        ++ "Content-Type: ".toList ++ T ++ "\r\n".toList
        ++ "Connection: close\r\n\r\n".toList) := by
    apply fit_of_le
    simp only [List.length_append, BUFFER_SIZE]
    omega
  have f4 : fit BUFFER_SIZE
      (M ++ " ".toList ++ P ++ " HTTP/1.1\r\nHost: ".toList ++ H ++ "\r\n".toList
        ++ "Content-Length: ".toList ++ decimal B.length ++ "\r\n".toList
        ++ "Content-Type: ".toList ++ T ++ "\r\n".toList
        ++ "Connection: close\r\n\r\n".toList ++ B)
      = some (M ++ " ".toList ++ P ++ " HTTP/1.1\r\nHost: ".toList ++ H ++ "\r\n".toList
        ++ "Content-Length: ".toList ++ decimal B.length ++ "\r\n".toList
        ++ "Content-Type: ".toList ++ T ++ "\r\n".toList
        ++ "Connection: close\r\n\r\n".toList ++ B) := by
    apply fit_of_le
    simp only [List.length_append, BUFFER_SIZE]
    omega
  simp only [buildRequest, gt_iff_lt, hBl, hTl, if_true, bind, Option.bind, pure, f0, f1, f2,
    f3, f4]

theorem request_with_body_witness :
    buildRequest "POST".toList "foo".toList "example.com".toList "hello".toList "text/plain".toList
      = some (("POST foo HTTP/1.1\r\nHost: example.com\r\nContent-Length: 5\r\n"
          ++ "Content-Type: text/plain\r\nConnection: close\r\n\r\nhello").toList) :=
  (request_with_body "POST".toList "foo".toList "example.com".toList "hello".toList
    "text/plain".toList (by decide) (by decide) (by decide)).1

/-- The return value of `sscanf` is the number of strings assigned, unless it is
`EOF`. -/
theorem sscanfAux_count (ds : List Directive) : ∀ (inp : List Char) (acc : List CStr),
    (sscanfAux ds inp acc).1 = ((sscanfAux ds inp acc).2.length : Int) ∨
      (sscanfAux ds inp acc).1 = -1 := by
  induction ds with
  | nil => intro inp acc; simp [sscanfAux]
  | cons d ds ih =>
    intro inp acc
    cases d with
    | lit c =>
      cases inp with
      | nil =>
        by_cases h : acc = [] <;> simp [sscanfAux, inputFailure, h]
      | cons x xs =>
        by_cases h : x = c
        · simpa [sscanfAux, h] using ih xs acc
        · simp [sscanfAux, h]
    | scanset w excl =>
      cases inp with
      | nil =>
        by_cases h : acc = [] <;> simp [sscanfAux, inputFailure, h]
      | cons x xs =>
        by_cases h : (scanRun excl w (x :: xs)).1 = []
        · simp [sscanfAux, h]
        · simpa [sscanfAux, h] using ih _ _

theorem sscanf_count (url : CStr) (fmt : List Directive) (n : Nat)
    (h : (sscanf url fmt).1 = (n : Int)) : (sscanf url fmt).2.length = n := by
  rcases sscanfAux_count fmt url [] with h1 | h1
  · rw [sscanf] at h ⊢
    rw [h1] at h
    exact_mod_cast h
  · rw [sscanf] at h
    rw [h1] at h
    omega

/-- A successful decomposition has written both `protocol` and `host`. -/
theorem parseUrl_written (url : CStr) (b : UrlBufs) (hb : parseUrl url = some b) :
    ∃ p h, b.protocol = some p ∧ b.host = some h := by
  unfold parseUrl at hb
  by_cases h3 : (sscanf url fmt3).1 = 3
  · have hl := sscanf_count url fmt3 3 h3
    simp only [h3, ne_eq, not_true_eq_false, if_false] at hb
    rcases hq : (sscanf url fmt3).2 with _ | ⟨p, _ | ⟨h, _ | ⟨q, _ | ⟨z, zs⟩⟩⟩⟩ <;>
      rw [hq] at hl <;> simp at hl
    rw [hq] at hb
    simp only [store, Option.some.injEq] at hb
    subst hb
    exact ⟨p, h, rfl, rfl⟩
  · by_cases h2 : (sscanf url fmt2).1 = 2
    · have hl := sscanf_count url fmt2 2 h2
      simp only [h3, h2, ne_eq, not_false_eq_true, not_true_eq_false, if_true, if_false] at hb
      rcases hq : (sscanf url fmt2).2 with _ | ⟨p, _ | ⟨h, _ | ⟨q, zs⟩⟩⟩ <;>
        rw [hq] at hl <;> simp at hl
      rw [hq] at hb
      simp only [store, Option.some.injEq] at hb
      subst hb
      exact ⟨p, h, rfl, rfl⟩
    · simp [h3, h2] at hb

/-- After a successful decomposition `main` hands the three strings to the transport. -/
theorem main_transport (env : Env) (prog url : CStr) (flags : List CStr) (b : UrlBufs)
    (p h : CStr) (hb : parseUrl url = some b) (hp : b.protocol = some p)
    (hh : b.host = some h) :
    main env (prog :: url :: flags)
      = transport env (parseFlags defaultConfig flags) p h b.path := by
  simp only [main, hb, hp, hh]

/-! ## The branches of the transport -/

theorem port_str_80 : snprintf 6 (decimal 80) = "80".toList := by decide

theorem transport_https (env : Env) (c : Config) (h q : CStr) :
    transport env c "https".toList h q
      = some { trace := [Event.stderr "HTTPS is not supported in this version.\n".toList],
               exit := 3 } := by
  simp [transport]

theorem transport_dns (env : Env) (c : Config) (p h q : CStr) (hp : p ≠ "https".toList)
    (hd : env.getaddrinfo h "80".toList = false) :
    transport env c p h q
      = some { trace := [Event.getaddrinfo h "80".toList false,
                 Event.stderr ("getaddrinfo: ".toList ++ env.gai_strerror ++ "\n".toList)],
               exit := 4 } := by
  simp only [transport, hp, if_false, port_str_80, hd, if_true]

theorem transport_socket (env : Env) (c : Config) (p h q : CStr) (hp : p ≠ "https".toList)
    (hd : env.getaddrinfo h "80".toList = true) (hs : env.socketOk = false) :
    transport env c p h q
      = some { trace := [Event.getaddrinfo h "80".toList true, Event.socket false,
                 perror env "socket".toList, Event.freeaddrinfo],
               exit := 5 } := by
  simp only [transport, hp, if_false, if_true, port_str_80, hd, hs, Bool.true_eq_false]

theorem transport_connect (env : Env) (c : Config) (p h q : CStr) (hp : p ≠ "https".toList)
    (hd : env.getaddrinfo h "80".toList = true) (hs : env.socketOk = true)
    (hc : env.connectOk = false) :
    transport env c p h q
      = some { trace := [Event.getaddrinfo h "80".toList true, Event.socket true,
                 Event.connect false, perror env "connect".toList, Event.close,
                 Event.freeaddrinfo],
               exit := 6 } := by
  simp only [transport, hp, if_false, if_true, port_str_80, hd, hs, hc, Bool.true_eq_false]

theorem transport_recv_fail (env : Env) (c : Config) (p h q req : CStr)
    (hp : p ≠ "https".toList) (hd : env.getaddrinfo h "80".toList = true)
    (hs : env.socketOk = true) (hc : env.connectOk = true)
    (hreq : buildRequest c.method q h c.data c.content_type = some req)
    (hin : env.incoming = none) :
    transport env c p h q
      = some { trace := [Event.getaddrinfo h "80".toList true, Event.socket true,
                 Event.connect true] ++ echo c.verbose req ++
                 [Event.send req (env.sendRet req), Event.recv (BUFFER_SIZE - 1) none,
                  perror env "recv".toList, Event.close, Event.freeaddrinfo],
               exit := 7 } := by
  simp only [transport, hp, if_false, if_true, port_str_80, hd, hs, hc, Bool.true_eq_false,
    exchange, hreq, recv, hin, Option.map, List.append_assoc]
  rfl

/-- Printing a buffer that holds `d` and then the terminator prints `d` up to its
first zero byte. -/
theorem cstr_terminated (d : List Char) :
    cstr (d ++ [NUL]) = d.takeWhile (fun c => c != NUL) := by
  induction d with
  | nil => simp [cstr]
  | cons x xs ih =>
    by_cases hx : x = NUL
    · simp [cstr, hx]
    · have hx2 : (x != NUL) = true := by simpa using hx
      simp only [cstr] at ih
      simp [cstr, List.takeWhile_cons, hx2, ih]

/-- Reading an array that holds `l` from index `i` on and a NUL behind it gives `l` up
to its first NUL. -/
theorem readCStr_holds (byte : Nat → Char) : ∀ (l : List Char) (i fuel : Nat),
    (∀ j, j < l.length → byte (i + j) = l.getD j NUL) → byte (i + l.length) = NUL →
    l.length < fuel → readCStr byte fuel i = some (l.takeWhile (fun c => c != NUL)) := by
  intro l
  induction l with
  | nil =>
    intro i fuel _ hend hfuel
    cases fuel with
    | zero => cases hfuel
    | succ f => simp [readCStr, show byte i = NUL from hend]
  | cons x xs ih =>
    intro i fuel hget hend hfuel
    cases fuel with
    | zero => cases hfuel
    | succ f =>
      have h0 : byte i = x := by
        have := hget 0 (by simp)
        simpa using this
      by_cases hx : x = NUL
      · simp [readCStr, h0, hx]
      · have hrec := ih (i + 1) f
          (fun j hj => by
            have := hget (j + 1) (by simpa using hj)
            simpa [Nat.add_assoc, Nat.add_comm 1 j] using this)
          (by
            have : i + 1 + xs.length = i + (x :: xs).length := by
              simp only [List.length_cons]
              omega
            rw [this]
            exact hend)
          (by simpa using hfuel)
        have hx2 : (x != NUL) = true := by simpa using hx
        simp [readCStr, h0, hx, hrec, List.takeWhile_cons, hx2]

/-- With at most `BUFFER_SIZE - 1` bytes received, both writes to `response` stay
inside the array. -/
theorem response_eq (env : Env) (bytes : List Char) (h : bytes.length ≤ BUFFER_SIZE - 1) :
    response env bytes
      = some { size := BUFFER_SIZE,
               byte := fun j => if j = bytes.length then NUL
                                else bytes.getD j (env.stack j) } := by
  have h1 : bytes.length ≤ BUFFER_SIZE := by
    rw [BUFFER_SIZE] at h ⊢
    omega
  have h2 : bytes.length < BUFFER_SIZE := by
    rw [BUFFER_SIZE] at h ⊢
    omega
  simp only [response, declared, storeReceived, h1, if_true, Option.bind, terminate, h2]

/-- The terminated `response` prints as the received bytes up to their first NUL. -/
theorem printfS_response (env : Env) (bytes : List Char) (h : bytes.length ≤ BUFFER_SIZE - 1) :
    printfS { size := BUFFER_SIZE,
              byte := fun j => if j = bytes.length then NUL
                               else bytes.getD j (env.stack j) }
      = some (cstr (bytes ++ [NUL])) := by
  have hl : bytes.length < BUFFER_SIZE := by
    rw [BUFFER_SIZE] at h ⊢
    omega
  rw [cstr_terminated, printfS]
  apply readCStr_holds _ bytes 0 BUFFER_SIZE
  · intro j hj
    have hne : ¬ (j = bytes.length) := by omega
    simp only [Nat.zero_add, hne, if_false]
    rw [List.getD_eq_getElem _ _ hj, List.getD_eq_getElem _ _ hj]
  · simp
  · exact hl

theorem transport_ok (env : Env) (c : Config) (p h q req : CStr) (d : List Char)
    (hp : p ≠ "https".toList) (hd : env.getaddrinfo h "80".toList = true)
    (hs : env.socketOk = true) (hc : env.connectOk = true)
    (hreq : buildRequest c.method q h c.data c.content_type = some req)
    (hin : env.incoming = some d) :
    transport env c p h q
      = some { trace := [Event.getaddrinfo h "80".toList true, Event.socket true,
                 Event.connect true] ++ echo c.verbose req ++
                 [Event.send req (env.sendRet req),
                  Event.recv (BUFFER_SIZE - 1) (some (d.take (BUFFER_SIZE - 1))),
                  Event.stdout (cstr (d.take (BUFFER_SIZE - 1) ++ [NUL])), Event.close,
                  Event.freeaddrinfo],
               exit := 0 } := by
  have hlen : (d.take (BUFFER_SIZE - 1)).length ≤ BUFFER_SIZE - 1 := by
    rw [List.length_take]
    exact Nat.min_le_left _ _
  simp only [transport, hp, if_false, if_true, port_str_80, hd, hs, hc, Bool.true_eq_false,
    exchange, hreq, recv, hin, Option.map, List.append_assoc, response_eq env _ hlen,
    printfS_response env _ hlen]
  rfl

theorem stagesOf_echo (v : Bool) (req : CStr) : stagesOf (echo v req) = [] := by
  cases v <;> rfl

/-- Claim C5: when the decomposed scheme is `https`, whatever the host, the path, the
flags and the collaborators, the run writes the unsupported-scheme message to the
error stream and returns 3, and makes no system call at all. -/
theorem https_unsupported (env : Env) (prog url : CStr) (flags : List CStr) (b : UrlBufs)
    (hb : parseUrl url = some b) (hs : b.protocol = some "https".toList) :
    main env (prog :: url :: flags)
      = some { trace := [Event.stderr "HTTPS is not supported in this version.\n".toList],
               exit := 3 } ∧
    ∀ r, main env (prog :: url :: flags) = some r →
      r.exit = 3 ∧ ∀ e ∈ r.trace, e.isCall = false := by
  obtain ⟨p, h, hp, hh⟩ := parseUrl_written url b hb
  have hps : p = "https".toList := by
    rw [hp] at hs
    exact Option.some.inj hs
  have hm := main_transport env prog url flags b p h hb hp hh
  rw [hps, transport_https] at hm
  refine ⟨hm, ?_⟩
  intro r hr
  rw [hm] at hr
  cases hr
  simp [Event.isCall]

theorem https_unsupported_witness :
    main stubServer ["client".toList, "https://example.com/x".toList, "-v".toList]
      = some { trace := [Event.stderr "HTTPS is not supported in this version.\n".toList],
               exit := 3 } :=
  (https_unsupported stubServer "client".toList "https://example.com/x".toList ["-v".toList]
    { protocol := some "https".toList, host := some "example.com".toList, path := ['x'] }
    (by decide) rfl).1

/-- Claim C6, at its own example: for `http://example.com/foo` with `-X POST -d hello
-H text/plain` the one request sent starts with `POST foo HTTP/1.1`, the path without
its leading slash; the response is printed and the run returns 0. -/
theorem request_target_lacks_slash :
    (main stubServer postFoo).map (fun r => (sentOf r.trace, stdoutOf r.trace, r.exit))
      = some ([("POST foo HTTP/1.1\r\nHost: example.com\r\nContent-Length: 5\r\n"
                 ++ "Content-Type: text/plain\r\nConnection: close\r\n\r\nhello").toList],
              "HTTP/1.1 200 OK\r\n\r\nOK".toList, 0) := by
  decide

/-- The seven ways a run on a URL ends, each with its condition and its events.
The two that reach the request need the request to fit its buffer. -/
theorem main_cases (env : Env) (prog url : CStr) (flags : List CStr)
    (hfit : connects env url = true → (requestOf url flags).isSome = true) :
    (parseUrl url = none ∧
      main env (prog :: url :: flags)
        = some { trace := [Event.stderr ("Error parsing URL: ".toList ++ url ++ "\n".toList)],
                 exit := 2 }) ∨
    ∃ b p h, parseUrl url = some b ∧ b.protocol = some p ∧ b.host = some h ∧
      ((p = "https".toList ∧
        main env (prog :: url :: flags)
          = some { trace := [Event.stderr "HTTPS is not supported in this version.\n".toList],
                   exit := 3 }) ∨
       (p ≠ "https".toList ∧ env.getaddrinfo h "80".toList = false ∧
        main env (prog :: url :: flags)
          = some { trace := [Event.getaddrinfo h "80".toList false,
                     Event.stderr ("getaddrinfo: ".toList ++ env.gai_strerror ++ "\n".toList)],
                   exit := 4 }) ∨
       (p ≠ "https".toList ∧ env.getaddrinfo h "80".toList = true ∧ env.socketOk = false ∧
        main env (prog :: url :: flags)
          = some { trace := [Event.getaddrinfo h "80".toList true, Event.socket false,
                     perror env "socket".toList, Event.freeaddrinfo],
                   exit := 5 }) ∨
       (p ≠ "https".toList ∧ env.getaddrinfo h "80".toList = true ∧ env.socketOk = true ∧
        env.connectOk = false ∧
        main env (prog :: url :: flags)
          = some { trace := [Event.getaddrinfo h "80".toList true, Event.socket true,
                     Event.connect false, perror env "connect".toList, Event.close,
                     Event.freeaddrinfo],
                   exit := 6 }) ∨
       (p ≠ "https".toList ∧ env.getaddrinfo h "80".toList = true ∧ env.socketOk = true ∧
        env.connectOk = true ∧ env.incoming = none ∧
        ∃ req, requestOf url flags = some req ∧
        main env (prog :: url :: flags)
          = some { trace := [Event.getaddrinfo h "80".toList true, Event.socket true,
                     Event.connect true] ++ echo (parseFlags defaultConfig flags).verbose req ++
                     [Event.send req (env.sendRet req), Event.recv (BUFFER_SIZE - 1) none,
                      perror env "recv".toList, Event.close, Event.freeaddrinfo],
                   exit := 7 }) ∨
       (p ≠ "https".toList ∧ env.getaddrinfo h "80".toList = true ∧ env.socketOk = true ∧
        env.connectOk = true ∧
        ∃ d req, env.incoming = some d ∧ requestOf url flags = some req ∧
        main env (prog :: url :: flags)
          = some { trace := [Event.getaddrinfo h "80".toList true, Event.socket true,
                     Event.connect true] ++ echo (parseFlags defaultConfig flags).verbose req ++
                     [Event.send req (env.sendRet req),
                      Event.recv (BUFFER_SIZE - 1) (some (d.take (BUFFER_SIZE - 1))),
                      Event.stdout (cstr (d.take (BUFFER_SIZE - 1) ++ [NUL])), Event.close,
                      Event.freeaddrinfo],
                   exit := 0 })) := by
  rcases hpu : parseUrl url with _ | b
  · left
    exact ⟨rfl, by simp only [main, hpu]⟩
  · right
    obtain ⟨p, h, hp, hh⟩ := parseUrl_written url b hpu
    have hm := main_transport env prog url flags b p h hpu hp hh
    refine ⟨b, p, h, rfl, hp, hh, ?_⟩
    by_cases h1 : p = "https".toList
    · left
      rw [hm, h1, transport_https]
      exact ⟨rfl, rfl⟩
    right
    cases h2 : env.getaddrinfo h "80".toList
    · left
      exact ⟨h1, rfl, by rw [hm, transport_dns env _ p h _ h1 h2]⟩
    right
    cases h3 : env.socketOk
    · left
      exact ⟨h1, rfl, rfl, by rw [hm, transport_socket env _ p h _ h1 h2 h3]⟩
    right
    cases h4 : env.connectOk
    · left
      exact ⟨h1, rfl, rfl, rfl, by rw [hm, transport_connect env _ p h _ h1 h2 h3 h4]⟩
    right
    have hhost : hostOf url = h := by simp [hostOf, hpu, hh]
    have hpath : pathOf url = b.path := by simp [pathOf, hpu]
    have hscheme : schemeOf url = some p := by simp [schemeOf, hpu, hp]
    have hconn : connects env url = true := by
      simp only [connects, hpu, hscheme, hhost, h2, h3, h4, Option.isSome_some, Bool.and_true,
        Bool.true_and, Bool.not_eq_true', decide_eq_false_iff_not, Option.some.injEq]
      exact h1
    have hsome := hfit hconn
    obtain ⟨req, hreq⟩ := Option.isSome_iff_exists.mp hsome
    have hreq2 := hreq
    rw [requestOf, hpath, hhost] at hreq2
    rcases h5 : env.incoming with _ | d
    · left
      refine ⟨h1, rfl, rfl, rfl, rfl, req, hreq, ?_⟩
      rw [hm, transport_recv_fail env _ p h _ req h1 h2 h3 h4 hreq2 h5]
    · right
      refine ⟨h1, rfl, rfl, rfl, d, req, rfl, hreq, ?_⟩
      rw [hm, transport_ok env _ p h _ req d h1 h2 h3 h4 hreq2 h5]

theorem firstFailure_of (env : Env) (url : CStr) (b : UrlBufs) (p h : CStr)
    (hb : parseUrl url = some b) (hp : b.protocol = some p) (hh : b.host = some h) :
    firstFailure env url =
      if p = "https".toList then 3
      else if env.getaddrinfo h "80".toList = false then 4
      else if env.socketOk = false then 5
      else if env.connectOk = false then 6
      else if env.incoming = none then 7
      else 0 := by
  have hhost : hostOf url = h := by simp [hostOf, hb, hh]
  have hscheme : schemeOf url = some p := by simp [schemeOf, hb, hp]
  simp only [firstFailure, hb, hscheme, hhost, Option.some.injEq, reduceCtorEq, if_false]

/-- Claim C7: the run on a URL returns the code of the first stage that fails (2
malformed URL, 3 `https`, 4 resolution, 5 socket creation, 6 connect, 7 receive, 0
none), whatever `send` returns, and goes through the stages up to the failing one and
no further.  A run that gets a connected socket is required to assemble a request
that fits its buffer. -/
theorem exit_code_first_failure (env : Env) (prog url : CStr) (flags : List CStr)
    (hfit : connects env url = true → (requestOf url flags).isSome = true) :
    ∃ r, main env (prog :: url :: flags) = some r ∧
      r.exit = firstFailure env url ∧
      stagesOf r.trace = stagesUpTo (firstFailure env url) := by
  rcases main_cases env prog url flags hfit with ⟨hpu, hm⟩ | ⟨b, p, h, hb, hp, hh, hcase⟩
  · refine ⟨_, hm, ?_, ?_⟩ <;> simp [firstFailure, hpu, stagesOf, stagesUpTo, Event.stage]
  · have hff := firstFailure_of env url b p h hb hp hh
    rcases hcase with ⟨h1, hm⟩ | ⟨h1, h2, hm⟩ | ⟨h1, h2, h3, hm⟩ | ⟨h1, h2, h3, h4, hm⟩ |
      ⟨h1, h2, h3, h4, h5, req, -, hm⟩ | ⟨h1, h2, h3, h4, d, req, h5, -, hm⟩
    · simp only [h1, if_false, if_true, Bool.true_eq_false, reduceCtorEq] at hff
      refine ⟨_, hm, hff.symm, ?_⟩
      rw [hff]
      simp [stagesOf, stagesUpTo, Event.stage]
    · simp only [h1, h2, if_false, if_true, Bool.true_eq_false, reduceCtorEq] at hff
      refine ⟨_, hm, hff.symm, ?_⟩
      rw [hff]
      simp [stagesOf, stagesUpTo, Event.stage]
    · simp only [h1, h2, h3, if_false, if_true, Bool.true_eq_false, reduceCtorEq] at hff
      refine ⟨_, hm, hff.symm, ?_⟩
      rw [hff]
      simp [stagesOf, stagesUpTo, Event.stage, perror]
    · simp only [h1, h2, h3, h4, if_false, if_true, Bool.true_eq_false, reduceCtorEq] at hff
      refine ⟨_, hm, hff.symm, ?_⟩
      rw [hff]
      simp [stagesOf, stagesUpTo, Event.stage, perror]
    · simp only [h1, h2, h3, h4, h5, if_false, if_true, Bool.true_eq_false, reduceCtorEq] at hff
      have he := stagesOf_echo (parseFlags defaultConfig flags).verbose req
      simp only [stagesOf] at he
      refine ⟨_, hm, hff.symm, ?_⟩
      rw [hff]
      simp [stagesOf, stagesUpTo, Event.stage, perror, he]
    · simp only [h1, h2, h3, h4, h5, if_false, if_true, Bool.true_eq_false, reduceCtorEq] at hff
      have he := stagesOf_echo (parseFlags defaultConfig flags).verbose req
      simp only [stagesOf] at he
      refine ⟨_, hm, hff.symm, ?_⟩
      rw [hff]
      simp [stagesOf, stagesUpTo, Event.stage, he]

theorem exit_code_first_failure_witness :
    ∃ r, main stubServer ("client".toList :: "http://example.com/foo".toList :: []) = some r ∧
      r.exit = firstFailure stubServer "http://example.com/foo".toList ∧
      stagesOf r.trace = stagesUpTo (firstFailure stubServer "http://example.com/foo".toList) :=
  exit_code_first_failure stubServer "client".toList "http://example.com/foo".toList []
    (by decide)

/-- Claim C8, at a failing `send`: when `send` returns -1 the run still calls `recv`,
prints the response and returns 0. -/
theorem send_error_ignored :
    main brokenSend plainGet
      = some { trace := [Event.getaddrinfo "example.com".toList "80".toList true,
                 Event.socket true, Event.connect true,
                 Event.send "GET / HTTP/1.1\r\nHost: example.com\r\nConnection: close\r\n\r\n".toList
                   (-1),
                 Event.recv 9999 (some "HTTP/1.1 200 OK\r\n\r\nOK".toList),
                 Event.stdout "HTTP/1.1 200 OK\r\n\r\nOK".toList, Event.close,
                 Event.freeaddrinfo],
               exit := 0 } := by
  decide

theorem count_echo (v : Bool) (req : CStr) :
    (echo v req).count Event.close = 0 ∧ (echo v req).count Event.freeaddrinfo = 0 ∧
    (echo v req).any Event.opensSocket = false ∧ (echo v req).any Event.resolves = false := by
  cases v <;> simp [echo, Event.opensSocket, Event.resolves]

/-- Claim C9: in every run `close` is called exactly once if a socket was created and
never otherwise, and `freeaddrinfo` is called exactly once if the resolution
succeeded and never otherwise.  A run that gets a connected socket is required to
assemble a request that fits its buffer. -/
theorem resources_released (env : Env) (prog : CStr) (rest : List CStr)
    (hfit : ∀ url flags, rest = url :: flags →
      connects env url = true → (requestOf url flags).isSome = true) :
    ∃ r, main env (prog :: rest) = some r ∧
      r.trace.count Event.close = (if r.trace.any Event.opensSocket then 1 else 0) ∧
      r.trace.count Event.freeaddrinfo = (if r.trace.any Event.resolves then 1 else 0) := by
  cases rest with
  | nil =>
    exact ⟨_, rfl, by simp [Event.opensSocket], by simp [Event.resolves]⟩
  | cons url flags =>
    rcases main_cases env prog url flags (hfit url flags rfl) with
      ⟨-, hm⟩ | ⟨b, p, h, -, -, -, hcase⟩
    · exact ⟨_, hm, by simp [Event.opensSocket], by simp [Event.resolves]⟩
    · rcases hcase with ⟨-, hm⟩ | ⟨-, -, hm⟩ | ⟨-, -, -, hm⟩ | ⟨-, -, -, -, hm⟩ |
        ⟨-, -, -, -, -, req, -, hm⟩ | ⟨-, -, -, -, d, req, -, -, hm⟩
      · exact ⟨_, hm, by simp [Event.opensSocket], by simp [Event.resolves]⟩
      · exact ⟨_, hm, by simp [Event.opensSocket], by simp [Event.resolves]⟩
      · exact ⟨_, hm, by simp [Event.opensSocket, perror], by simp [Event.resolves, perror]⟩
      · exact ⟨_, hm, by simp [Event.opensSocket, perror], by simp [Event.resolves, perror]⟩
      · obtain ⟨e1, e2, e3, e4⟩ := count_echo (parseFlags defaultConfig flags).verbose req
        refine ⟨_, hm, ?_, ?_⟩
        · simp [Event.opensSocket, perror, List.count_append, e1]
        · simp [Event.resolves, perror, List.count_append, e2]
      · obtain ⟨e1, e2, e3, e4⟩ := count_echo (parseFlags defaultConfig flags).verbose req
        refine ⟨_, hm, ?_, ?_⟩
        · simp [Event.opensSocket, List.count_append, e1]
        · simp [Event.resolves, List.count_append, e2]

theorem resources_released_witness :
    ∃ r, main stubServer ("client".toList :: ["http://example.com/foo".toList]) = some r ∧
      r.trace.count Event.close = (if r.trace.any Event.opensSocket then 1 else 0) ∧
      r.trace.count Event.freeaddrinfo = (if r.trace.any Event.resolves then 1 else 0) :=
  resources_released stubServer "client".toList ["http://example.com/foo".toList]
    (by
      intro url flags h
      cases h
      decide)

theorem connects_parts (env : Env) (url : CStr) (hc : connects env url = true) :
    ∃ b p h, parseUrl url = some b ∧ b.protocol = some p ∧ b.host = some h ∧
      p ≠ "https".toList ∧ env.getaddrinfo h "80".toList = true ∧ env.socketOk = true ∧
      env.connectOk = true := by
  rcases hpu : parseUrl url with _ | b
  · simp [connects, hpu] at hc
  · obtain ⟨p, h, hp, hh⟩ := parseUrl_written url b hpu
    have hhost : hostOf url = h := by simp [hostOf, hpu, hh]
    have hscheme : schemeOf url = some p := by simp [schemeOf, hpu, hp]
    simp only [connects, hpu, hscheme, hhost, Option.isSome_some, Bool.true_and,
      Bool.and_eq_true, Bool.not_eq_true', decide_eq_false_iff_not, Option.some.injEq] at hc
    exact ⟨b, p, h, rfl, hp, hh, hc.1.1.1, hc.1.1.2, hc.1.2, hc.2⟩

/-- Claim C10 fails as stated: the peer sends the three bytes `a`, NUL, `b`, `recv`
returns all three, and the run prints only `a` (and returns 0). -/
theorem print_drops_after_zero_byte :
    recv binaryPeer (BUFFER_SIZE - 1) = some ['a', NUL, 'b'] ∧
    (main binaryPeer plainGet).map (fun r => (stdoutOf r.trace, r.exit)) = some (['a'], 0) ∧
    ['a'] ≠ ['a', NUL, 'b'] := by
  decide

/-- Claim C10, amended: in a run that gets a connected socket and whose request fits
its buffer, for every byte sequence `d` that `recv` returns, `d` is at most 9,999
bytes long, the print step right after the `recv` writes the bytes of `d` before its
first zero byte, which is all of `d` when `d` holds no zero byte, and then the run
releases its resources and returns 0. -/
theorem print_up_to_zero_byte (env : Env) (prog url : CStr) (flags : List CStr)
    (d : List Char) (hconn : connects env url = true)
    (hfit : (requestOf url flags).isSome = true)
    (hrecv : recv env (BUFFER_SIZE - 1) = some d) :
    d.length ≤ 9999 ∧
    (∃ pre, main env (prog :: url :: flags)
        = some { trace := pre ++ [Event.recv (BUFFER_SIZE - 1) (some d),
                   Event.stdout (d.takeWhile (fun c => c != NUL)), Event.close,
                   Event.freeaddrinfo],
                 exit := 0 }) ∧
    (NUL ∉ d → d.takeWhile (fun c => c != NUL) = d) := by
  obtain ⟨b, p, h, hb, hp, hh, h1, h2, h3, h4⟩ := connects_parts env url hconn
  obtain ⟨req, hreq⟩ := Option.isSome_iff_exists.mp hfit
  have hhost : hostOf url = h := by simp [hostOf, hb, hh]
  have hpath : pathOf url = b.path := by simp [pathOf, hb]
  rw [requestOf, hpath, hhost] at hreq
  rcases h5 : env.incoming with _ | d0
  · simp [recv, h5] at hrecv
  · have hd : d = d0.take (BUFFER_SIZE - 1) := by
      simp only [recv, h5, Option.map, Option.some.injEq] at hrecv
      exact hrecv.symm
    refine ⟨?_, ?_, ?_⟩
    · rw [hd]
      simp [BUFFER_SIZE, List.length_take]
    · refine ⟨[Event.getaddrinfo h "80".toList true, Event.socket true, Event.connect true]
        ++ echo (parseFlags defaultConfig flags).verbose req
        ++ [Event.send req (env.sendRet req)], ?_⟩
      rw [main_transport env prog url flags b p h hb hp hh,
        transport_ok env _ p h _ req d0 h1 h2 h3 h4 hreq h5, ← hd, cstr_terminated]
      simp only [List.append_assoc, List.cons_append, List.nil_append]
    · intro hn
      rw [List.takeWhile_eq_self_iff]
      intro x hx
      have : x ≠ NUL := fun e => hn (e ▸ hx)
      simpa using this

theorem print_up_to_zero_byte_witness :
    ("HTTP/1.1 200 OK\r\n\r\nOK".toList).length ≤ 9999 ∧
    (∃ pre, main stubServer ("client".toList :: "http://example.com".toList :: [])
        = some { trace := pre ++ [Event.recv (BUFFER_SIZE - 1)
                     (some "HTTP/1.1 200 OK\r\n\r\nOK".toList),
                   Event.stdout ("HTTP/1.1 200 OK\r\n\r\nOK".toList.takeWhile
                     (fun c => c != NUL)), Event.close, Event.freeaddrinfo],
                 exit := 0 }) ∧
    (NUL ∉ "HTTP/1.1 200 OK\r\n\r\nOK".toList →
      "HTTP/1.1 200 OK\r\n\r\nOK".toList.takeWhile (fun c => c != NUL)
        = "HTTP/1.1 200 OK\r\n\r\nOK".toList) :=
  print_up_to_zero_byte stubServer "client".toList "http://example.com".toList []
    "HTTP/1.1 200 OK\r\n\r\nOK".toList (by decide) (by decide) (by decide)

/-! ## The request builder as one write -/

theorem fit_append_none {cap : Nat} {s : CStr} (t : CStr) (h : fit cap s = none) :
    fit cap (s ++ t) = none := by
  simp only [fit] at h ⊢
  split at h
  · cases h
  · rw [if_neg]
    simp only [List.length_append]
    omega

theorem fit_cases (cap : Nat) (s : CStr) : fit cap s = some s ∨ fit cap s = none := by
  simp only [fit]
  split
  · exact Or.inl rfl
  · exact Or.inr rfl

/-- The writes of the builder succeed together or not at all: the result is the
whole request, if the whole request fits. -/
theorem buildRequest_eq_fit (M P H B T : CStr) :
    buildRequest M P H B T = fit BUFFER_SIZE (specRequest M P H B T) := by
  rcases fit_cases BUFFER_SIZE
      (M ++ " ".toList ++ P ++ " HTTP/1.1\r\nHost: ".toList ++ H ++ "\r\n".toList) with f0 | f0
  · by_cases hB : B = []
    · subst hB
      simp only [buildRequest, specRequest, List.length_nil, gt_iff_lt, lt_self_iff_false,
        if_false, if_true, bind, Option.bind, pure, f0, true_or, List.append_nil]
      rcases fit_cases BUFFER_SIZE
          (M ++ " ".toList ++ P ++ " HTTP/1.1\r\nHost: ".toList ++ H ++ "\r\n".toList
            ++ "Connection: close\r\n\r\n".toList) with f2 | f2 <;> rw [f2]
    · have hBl : 0 < B.length := List.length_pos.mpr hB
      rcases fit_cases BUFFER_SIZE
          (M ++ " ".toList ++ P ++ " HTTP/1.1\r\nHost: ".toList ++ H ++ "\r\n".toList
            ++ "Content-Length: ".toList ++ decimal B.length ++ "\r\n".toList) with f1 | f1
      · by_cases hT : T = []
        · subst hT
          simp only [buildRequest, specRequest, List.length_nil, gt_iff_lt, lt_self_iff_false,
            hBl, hB, if_false, if_true, bind, Option.bind, pure, f0, f1, or_true,
            List.append_nil]
          rcases fit_cases BUFFER_SIZE
              (M ++ " ".toList ++ P ++ " HTTP/1.1\r\nHost: ".toList ++ H ++ "\r\n".toList
                ++ "Content-Length: ".toList ++ decimal B.length ++ "\r\n".toList
                ++ "Connection: close\r\n\r\n".toList) with f2 | f2
          · simp only [f2]
            simp only [List.append_assoc]
          · simp only [f2]
            have := fit_append_none B f2
            simp only [List.append_assoc] at this ⊢
            exact this.symm
        · have hTl : 0 < T.length := List.length_pos.mpr hT
          simp only [buildRequest, specRequest, gt_iff_lt, hBl, hTl, hB, hT, if_false,
            if_true, bind, Option.bind, pure, f0, f1, or_self]
          rcases fit_cases BUFFER_SIZE
              (M ++ " ".toList ++ P ++ " HTTP/1.1\r\nHost: ".toList ++ H ++ "\r\n".toList
                ++ "Content-Length: ".toList ++ decimal B.length ++ "\r\n".toList
                ++ "Content-Type: ".toList ++ T ++ "\r\n".toList) with f2 | f2
          · simp only [f2]
            rcases fit_cases BUFFER_SIZE
                (M ++ " ".toList ++ P ++ " HTTP/1.1\r\nHost: ".toList ++ H ++ "\r\n".toList
                  ++ "Content-Length: ".toList ++ decimal B.length ++ "\r\n".toList
                  ++ "Content-Type: ".toList ++ T ++ "\r\n".toList
                  ++ "Connection: close\r\n\r\n".toList) with f3 | f3
            · simp only [f3]
              simp only [List.append_assoc]
            · simp only [f3]
              have := fit_append_none B f3
              simp only [List.append_assoc] at this ⊢
              exact this.symm
          · simp only [f2]
            have := fit_append_none ("Connection: close\r\n\r\n".toList ++ B) f2
            simp only [List.append_assoc] at this ⊢
            exact this.symm
      · have := fit_append_none
          ((if B = [] ∨ T = [] then [] else "Content-Type: ".toList ++ T ++ "\r\n".toList)
            ++ "Connection: close\r\n\r\n".toList ++ B) f1
        simp only [buildRequest, specRequest, gt_iff_lt, hBl, hB, if_false, if_true, bind,
          Option.bind, pure, f0, f1]
        simp only [hB, List.append_assoc] at this ⊢
        exact this.symm
  · have := fit_append_none
      ((if B = [] then [] else "Content-Length: ".toList ++ decimal B.length ++ "\r\n".toList)
        ++ (if B = [] ∨ T = [] then [] else "Content-Type: ".toList ++ T ++ "\r\n".toList)
        ++ "Connection: close\r\n\r\n".toList ++ B) f0
    simp only [buildRequest, specRequest, bind, Option.bind, f0]
    simp only [List.append_assoc] at this ⊢
    exact this.symm

theorem parseFlags_data (B : CStr) :
    parseFlags defaultConfig [ "-d".toList, B]
      = { method := "GET".toList, data := B.take 9999, content_type := [], verbose := false } := by
  have h1 : ("-d".toList = "-v".toList) = False := by decide
  have h2 : ("-d".toList = "-X".toList) = False := by decide
  simp only [parseFlags, h1, h2, if_false, if_true, strncpy, BUFFER_SIZE, defaultConfig]

/-- A body of 9,999 bytes: the request for `GET / ` on host `h` needs 10,068 bytes
with its terminator, and the builder overflows. -/
theorem long_body_overflows (B : CStr) (hB : B.length = 9999) :
    (specRequest "GET".toList "/".toList "h".toList B []).length + 1 = 10068 ∧
    buildRequest "GET".toList "/".toList "h".toList B [] = none := by
  have hne : B ≠ [] := by
    intro h
    rw [h] at hB
    cases hB
  have hlen : (specRequest "GET".toList "/".toList "h".toList B []).length + 1 = 10068 := by
    have d : decimal 9999 = "9999".toList := by decide
    have l1 : "GET".toList.length = 3 := rfl
    have l2 : " ".toList.length = 1 := rfl
    have l3 : "/".toList.length = 1 := rfl
    have l4 : " HTTP/1.1\r\nHost: ".toList.length = 17 := rfl
    have l5 : "h".toList.length = 1 := rfl
    have l6 : "\r\n".toList.length = 2 := rfl
    have l7 : "Content-Length: ".toList.length = 16 := rfl
    have l8 : "9999".toList.length = 4 := rfl
    have l9 : "Connection: close\r\n\r\n".toList.length = 21 := rfl
    simp only [specRequest, hne, if_false, or_true, if_true, List.length_append, hB, d,
      List.length_nil, l1, l2, l3, l4, l5, l6, l7, l8, l9]
  refine ⟨hlen, ?_⟩
  rw [buildRequest_eq_fit, fit, if_neg]
  rw [hlen, BUFFER_SIZE]
  decide

/-- Claim C11, at a body of 9,999 bytes: for `client http://h -d aaa...a` the flag loop
keeps all 9,999 bytes, the request with its terminator needs 10,068 bytes, more than
the 10,000 of `request`, so the builder writes past the end of the buffer and the run
has no defined result. -/
theorem request_overflows_buffer :
    (parseFlags defaultConfig [ "-d".toList, List.replicate 9999 'a']).data.length = 9999 ∧
    (specRequest "GET".toList "/".toList "h".toList (List.replicate 9999 'a') []).length + 1
      = 10068 ∧
    buildRequest "GET".toList "/".toList "h".toList (List.replicate 9999 'a') [] = none ∧
    main stubServer longBody = none := by
  have hB : (List.replicate 9999 'a').length = 9999 := List.length_replicate 9999 'a'
  have hurl : parseUrl "http://h".toList
      = some { protocol := some "http".toList, host := some "h".toList, path := "/".toList } := by
    decide
  have hs : "http".toList ≠ "https".toList := by decide
  rw [longBody]
  generalize List.replicate 9999 'a' = B at hB ⊢
  have htake : B.take 9999 = B := List.take_of_length_le (by omega)
  obtain ⟨hlen, hbuild⟩ := long_body_overflows B hB
  refine ⟨by rw [parseFlags_data, htake]; exact hB, hlen, hbuild, ?_⟩
  simp only [main, hurl, parseFlags_data, htake, transport, hs, if_false, stubServer, exchange,
    hbuild, Bool.true_eq_false]

/-- A run that has a result and a connected socket has assembled a request that
fits. -/
theorem main_some_fits (env : Env) (prog url : CStr) (flags : List CStr) (r : Run)
    (hr : main env (prog :: url :: flags) = some r) :
    connects env url = true → (requestOf url flags).isSome = true := by
  intro hconn
  obtain ⟨b, p, h, hb, hp, hh, h1, h2, h3, h4⟩ := connects_parts env url hconn
  have hhost : hostOf url = h := by simp [hostOf, hb, hh]
  have hpath : pathOf url = b.path := by simp [pathOf, hb]
  rcases hreq : requestOf url flags with _ | req
  · exfalso
    rw [requestOf, hpath, hhost] at hreq
    rw [main_transport env prog url flags b p h hb hp hh] at hr
    simp only [transport, h1, if_false, port_str_80, h2, h3, h4, Bool.true_eq_false, exchange,
      hreq] at hr
    cases hr
  · rfl

theorem not_mem_echo (v : Bool) (req host port : CStr) (ok : Bool) :
    Event.getaddrinfo host port ok ∉ echo v req := by
  cases v <;> simp [echo]

/-- Claim C12: for a URL that decomposes with a scheme other than `https` the run goes
past the scheme check and its first event is the call of `getaddrinfo` with the
decomposed host and the port `"80"`; and in every run of the program every call of
`getaddrinfo` is made with the port `"80"`.  A run that gets a connected socket is
required to assemble a request that fits its buffer. -/
theorem port_80_only (env : Env) (prog url : CStr) (flags : List CStr) (b : UrlBufs)
    (p h : CStr) (hb : parseUrl url = some b) (hp : b.protocol = some p)
    (hh : b.host = some h) (hs : p ≠ "https".toList)
    (hfit : connects env url = true → (requestOf url flags).isSome = true) :
    (∃ r, main env (prog :: url :: flags) = some r ∧
      r.trace.head? = some (Event.getaddrinfo h "80".toList (env.getaddrinfo h "80".toList))) ∧
    (∀ (env2 : Env) (argv : List CStr) (r : Run), main env2 argv = some r →
      ∀ host port ok, Event.getaddrinfo host port ok ∈ r.trace → port = "80".toList) := by
  constructor
  · rcases main_cases env prog url flags hfit with ⟨hpu, -⟩ | ⟨b2, p2, h2, hb2, hp2, hh2, hcase⟩
    · rw [hpu] at hb
      cases hb
    · rw [hb] at hb2
      cases hb2
      rw [hp] at hp2
      cases hp2
      rw [hh] at hh2
      cases hh2
      rcases hcase with ⟨h1, -⟩ | ⟨-, e2, hm⟩ | ⟨-, e2, -, hm⟩ | ⟨-, e2, -, -, hm⟩ |
        ⟨-, e2, -, -, -, req, -, hm⟩ | ⟨-, e2, -, -, d, req, -, -, hm⟩
      · exact absurd h1 hs
      all_goals exact ⟨_, hm, by rw [e2]; rfl⟩
  · intro env2 argv r hr host port ok hmem
    rcases argv with _ | ⟨prog2, _ | ⟨url2, flags2⟩⟩
    · cases hr
    · simp only [main, Option.some.injEq] at hr
      subst hr
      simp at hmem
    · rcases main_cases env2 prog2 url2 flags2 (main_some_fits env2 prog2 url2 flags2 r hr)
        with ⟨-, hm⟩ | ⟨b2, p2, h2, -, -, -, hcase⟩
      · rw [hm] at hr
        cases hr
        simp at hmem
      · have ne := not_mem_echo (parseFlags defaultConfig flags2).verbose
        rcases hcase with ⟨-, hm⟩ | ⟨-, -, hm⟩ | ⟨-, -, -, hm⟩ | ⟨-, -, -, -, hm⟩ |
          ⟨-, -, -, -, -, req, -, hm⟩ | ⟨-, -, -, -, d, req, -, -, hm⟩ <;>
        · rw [hm] at hr
          cases hr
          simp only [List.mem_cons, List.mem_append, List.mem_singleton, perror,
            Event.getaddrinfo.injEq, reduceCtorEq, List.not_mem_nil, or_false, false_or, ne]
            at hmem
          try exact hmem.2.1

theorem port_80_only_witness :
    (∃ r, main stubServer ("client".toList :: "ftp://host/path".toList :: []) = some r ∧
      r.trace.head? = some (Event.getaddrinfo "host".toList "80".toList
        (stubServer.getaddrinfo "host".toList "80".toList))) ∧
    (∀ (env2 : Env) (argv : List CStr) (r : Run), main env2 argv = some r →
      ∀ host port ok, Event.getaddrinfo host port ok ∈ r.trace → port = "80".toList) :=
  port_80_only stubServer "client".toList "ftp://host/path".toList []
    { protocol := some "ftp".toList, host := some "host".toList, path := "path".toList }
    "ftp".toList "host".toList (by decide) rfl rfl (by decide) (by decide)

theorem exitOf_injective : Function.Injective exitOf := by
  intro a b h
  rcases a with _ | a <;> rcases b with _ | b
  · rfl
  · cases b <;> simp [exitOf] at h
  · cases a <;> simp [exitOf] at h
  · cases a <;> cases b <;> first | rfl | (simp [exitOf] at h)

theorem exitOf_failurePoint (env : Env) (prog url : CStr) (flags : List CStr) :
    exitOf (failurePoint env (prog :: url :: flags)) = firstFailure env url := by
  simp only [failurePoint, firstFailure]
  split_ifs <;> rfl

theorem stdoutOf_echo_tail (v : Bool) (req : CStr) (t : List Event) :
    stdoutOf (echo v req ++ t) = stdoutOf (echo v req) ++ stdoutOf t := by
  cases v <;> simp [echo, stdoutOf]

/-- Claim C13 fails as stated: run without a URL, the program returns 1, writes its
usage line to standard output and writes nothing to the error stream. -/
theorem usage_goes_to_stdout :
    main stubServer noUrl
      = some { trace := [Event.stdout "Usage: client <URL>\n".toList], exit := 1 } ∧
    (main stubServer noUrl).map (fun r => stderrOf r.trace) = some [] := by
  decide

/-- Claim C13, amended: the exit code of a run is the code of its failure point, and
different failure points have different codes; a run that ends with a code from 2 to 7
writes a message that is not empty to the error stream, writes nothing to standard
output from then on, and, unless it failed at the receive, writes nothing to standard
output at all; the run without a URL returns 1 after writing its usage line to
standard output and nothing to the error stream.  A run that gets a connected socket
is required to assemble a request that fits its buffer. -/
theorem errors_reported (env : Env) (prog : CStr) (rest : List CStr)
    (hfit : ∀ url flags, rest = url :: flags →
      connects env url = true → (requestOf url flags).isSome = true) :
    Function.Injective exitOf ∧
    ∃ r, main env (prog :: rest) = some r ∧
      r.exit = exitOf (failurePoint env (prog :: rest)) ∧
      (2 ≤ r.exit →
        (∃ pre msg post, r.trace = pre ++ Event.stderr msg :: post ∧ msg ≠ [] ∧
          stdoutOf post = []) ∧
        (r.exit ≠ 7 → stdoutOf r.trace = [])) ∧
      (r.exit = 1 → stderrOf r.trace = [] ∧
        r.trace = [Event.stdout ("Usage: ".toList ++ prog ++ " <URL>\n".toList)]) := by
  refine ⟨exitOf_injective, ?_⟩
  cases rest with
  | nil =>
    refine ⟨_, rfl, rfl, ?_, ?_⟩
    · intro h
      simp at h
    · intro _
      exact ⟨rfl, rfl⟩
  | cons url flags =>
    rw [exitOf_failurePoint]
    rcases main_cases env prog url flags (hfit url flags rfl) with
      ⟨hpu, hm⟩ | ⟨b, p, h, hb, hp, hh, hcase⟩
    · refine ⟨_, hm, by simp [firstFailure, hpu], fun _ => ⟨⟨[], _, [], rfl, ?_, rfl⟩, ?_⟩, ?_⟩
      · simp
      · intro _
        rfl
      · intro h1
        cases h1
    · have hff := firstFailure_of env url b p h hb hp hh
      rcases hcase with ⟨h1, hm⟩ | ⟨h1, h2, hm⟩ | ⟨h1, h2, h3, hm⟩ | ⟨h1, h2, h3, h4, hm⟩ |
        ⟨h1, h2, h3, h4, h5, req, -, hm⟩ | ⟨h1, h2, h3, h4, d, req, h5, -, hm⟩
      · simp only [h1, if_true] at hff
        refine ⟨_, hm, hff.symm, fun _ => ⟨⟨[], _, [], rfl, ?_, rfl⟩, ?_⟩, ?_⟩
        · simp
        · intro _
          rfl
        · intro h1
          cases h1
      · simp only [h1, h2, if_false, if_true] at hff
        refine ⟨_, hm, hff.symm, fun _ => ⟨⟨[_], _, [], rfl, ?_, rfl⟩, ?_⟩, ?_⟩
        · simp
        · intro _
          rfl
        · intro h1
          cases h1
      · simp only [h1, h2, h3, if_false, if_true, Bool.true_eq_false] at hff
        refine ⟨_, hm, hff.symm, fun _ => ⟨⟨[_, _], _, [_], rfl, ?_, rfl⟩, ?_⟩, ?_⟩
        · simp
        · intro _
          rfl
        · intro h1
          cases h1
      · simp only [h1, h2, h3, h4, if_false, if_true, Bool.true_eq_false] at hff
        refine ⟨_, hm, hff.symm, fun _ => ⟨⟨[_, _, _], _, [_, _], rfl, ?_, rfl⟩, ?_⟩, ?_⟩
        · simp
        · intro _
          rfl
        · intro h1
          cases h1
      · simp only [h1, h2, h3, h4, h5, if_false, if_true, Bool.true_eq_false] at hff
        refine ⟨_, hm, hff.symm, fun _ => ⟨⟨[Event.getaddrinfo h "80".toList true,
          Event.socket true, Event.connect true]
          ++ echo (parseFlags defaultConfig flags).verbose req
          ++ [Event.send req (env.sendRet req), Event.recv (BUFFER_SIZE - 1) none],
          "recv".toList ++ ": ".toList ++ env.strerror ++ "\n".toList,
          [Event.close, Event.freeaddrinfo], ?_, ?_, rfl⟩, ?_⟩, ?_⟩
        · simp only [perror, List.append_assoc, List.cons_append, List.nil_append]
        · simp
        · intro h7
          exact absurd rfl h7
        · intro h1
          cases h1
      · simp only [h1, h2, h3, h4, h5, if_false, if_true, Bool.true_eq_false, reduceCtorEq]
          at hff
        refine ⟨_, hm, hff.symm, ?_, ?_⟩
        · intro h2
          simp at h2
        · intro h1
          cases h1

theorem errors_reported_witness :
    Function.Injective exitOf ∧
    ∃ r, main noResolver ("client".toList :: ["http://example.com".toList]) = some r ∧
      r.exit = exitOf (failurePoint noResolver ("client".toList :: ["http://example.com".toList])) ∧
      (2 ≤ r.exit →
        (∃ pre msg post, r.trace = pre ++ Event.stderr msg :: post ∧ msg ≠ [] ∧
          stdoutOf post = []) ∧
        (r.exit ≠ 7 → stdoutOf r.trace = [])) ∧
      (r.exit = 1 → stderrOf r.trace = [] ∧
        r.trace = [Event.stdout ("Usage: ".toList ++ "client".toList ++ " <URL>\n".toList)]) :=
  errors_reported noResolver "client".toList ["http://example.com".toList]
    (by
      intro url flags h
      cases h
      decide)

/-! ## Components longer than their buffers -/

/-- A run over an input whose first `w` characters are free of the excluded character
takes exactly those. -/
theorem scanRun_take (excl : Char) : ∀ (w : Nat) (l : List Char), w ≤ l.length →
    (∀ c ∈ l.take w, c ≠ excl) → scanRun excl w l = (l.take w, l.drop w) := by
  intro w
  induction w with
  | zero => intro l _ _; simp [scanRun]
  | succ w ih =>
    intro l hl hc
    cases l with
    | nil => simp at hl
    | cons x xs =>
      have hx : x ≠ excl := hc x (by simp)
      have hrec := ih xs (by simpa using hl) (fun c hm => hc c (by simp [hm]))
      simp [scanRun, hx, hrec]

/-- The scheme and the separator are matched by the head of both formats. -/
theorem sscanfAux_scheme (s t : List Char) (ds : List Directive)
    (hs1 : s ≠ []) (hs5 : s.length ≤ 5) (hs : ∀ c ∈ s, c ≠ ':') :
    sscanfAux (Directive.scanset 5 ':' :: Directive.lit ':' :: Directive.lit '/' ::
      Directive.lit '/' :: ds) (s ++ "://".toList ++ t) [] = sscanfAux ds t [s] := by
  have e1 : scanRun ':' 5 (s ++ "://".toList ++ t) = (s, ':' :: ('/' :: '/' :: t)) := by
    have := scanRun_stop ':' s ('/' :: '/' :: t) 5 hs5 hs
    simpa using this
  rw [sscanfAux_scanset _ _ _ _ _ (by rw [e1]; exact hs1), e1]
  simp only [sscanfAux_lit, List.nil_append]

theorem take_ne_nil {l : List Char} {n : Nat} (hn : 0 < n) (hl : n < l.length) :
    l.take n ≠ [] := by
  intro h
  have := congrArg List.length h
  simp only [List.length_take, List.length_nil] at this
  omega

theorem drop_head {l : List Char} {n : Nat} (hl : n < l.length) :
    ∃ x xs, l.drop n = x :: xs ∧ x ∈ l := by
  rcases hd : l.drop n with _ | ⟨x, xs⟩
  · have := congrArg List.length hd
    simp only [List.length_drop, List.length_nil] at this
    omega
  · refine ⟨x, xs, rfl, ?_⟩
    have : x ∈ l.drop n := by rw [hd]; simp
    exact List.mem_of_mem_drop this

/-- A scheme of more than 5 characters is not accepted. -/
theorem parseUrl_long_scheme (sl rest : List Char) (hlen : 5 < sl.length)
    (hc : ∀ c ∈ sl, c ≠ ':') : parseUrl (sl ++ rest) = none := by
  obtain ⟨x, xs, hd, hx⟩ := drop_head hlen
  have hxc : x ≠ ':' := hc x hx
  have hrun : scanRun ':' 5 (sl ++ rest) = (sl.take 5, x :: (xs ++ rest)) := by
    have hsplit : sl ++ rest = sl.take 5 ++ (x :: (xs ++ rest)) := by
      conv_lhs => rw [← List.take_append_drop 5 sl, hd]
      simp
    have h5 : (sl ++ rest).take 5 = sl.take 5 := by
      rw [List.take_append_of_le_length (by omega)]
    have h6 : (sl ++ rest).drop 5 = x :: (xs ++ rest) := by
      rw [List.drop_append_of_le_length (by omega), hd]
      simp
    rw [scanRun_take ':' 5 (sl ++ rest) (by simp only [List.length_append]; omega)
      (by rw [h5]; exact fun c hm => hc c (List.mem_of_mem_take hm)), h5, h6]
  have hne : (scanRun ':' 5 (sl ++ rest)).1 ≠ [] := by
    rw [hrun]
    exact take_ne_nil (by decide) hlen
  have key : ∀ ds, (sscanfAux (Directive.scanset 5 ':' :: Directive.lit ':' :: ds)
      (sl ++ rest) []).1 = 1 := by
    intro ds
    rw [sscanfAux_scanset _ _ _ _ _ hne, hrun]
    simp [sscanfAux, hxc]
  have n3 : (sscanf (sl ++ rest) fmt3).1 ≠ 3 := by
    rw [sscanf, fmt3, fmt2]
    simp only [List.cons_append, key]
    decide
  have n2 : (sscanf (sl ++ rest) fmt2).1 ≠ 2 := by
    rw [sscanf, fmt2, key]
    decide
  simp [parseUrl, n3, n2]

/-- A host of more than 99 characters is cut to its first 99, and the path is then
the default one, whatever follows the host. -/
theorem parseUrl_long_host (s hl rest : List Char)
    (hs1 : s ≠ []) (hs5 : s.length ≤ 5) (hs : ∀ c ∈ s, c ≠ ':')
    (hlen : 99 < hl.length) (hc : ∀ c ∈ hl, c ≠ '/') :
    parseUrl (s ++ "://".toList ++ hl ++ rest)
      = some { protocol := some s, host := some (hl.take 99), path := "/".toList } := by
  obtain ⟨x, xs, hd, hx⟩ := drop_head hlen
  have hxc : x ≠ '/' := hc x hx
  have hrun : scanRun '/' 99 (hl ++ rest) = (hl.take 99, x :: (xs ++ rest)) := by
    have h5 : (hl ++ rest).take 99 = hl.take 99 := by
      rw [List.take_append_of_le_length (by omega)]
    have h6 : (hl ++ rest).drop 99 = x :: (xs ++ rest) := by
      rw [List.drop_append_of_le_length (by omega), hd]
      simp
    rw [scanRun_take '/' 99 (hl ++ rest) (by simp only [List.length_append]; omega)
      (by rw [h5]; exact fun c hm => hc c (List.mem_of_mem_take hm)), h5, h6]
  have hne : (scanRun '/' 99 (hl ++ rest)).1 ≠ [] := by
    rw [hrun]
    exact take_ne_nil (by decide) hlen
  have hurl : s ++ "://".toList ++ hl ++ rest = s ++ "://".toList ++ (hl ++ rest) := by simp
  have e3 : sscanf (s ++ "://".toList ++ hl ++ rest) fmt3 = (2, [s, hl.take 99]) := by
    rw [sscanf, fmt3, fmt2, hurl]
    simp only [List.cons_append, List.nil_append]
    rw [sscanfAux_scheme s _ _ hs1 hs5 hs, sscanfAux_scanset _ _ _ _ _ hne, hrun]
    simp [sscanfAux, hxc]
  have e2 : sscanf (s ++ "://".toList ++ hl ++ rest) fmt2 = (2, [s, hl.take 99]) := by
    rw [sscanf, fmt2, hurl]
    rw [sscanfAux_scheme s _ _ hs1 hs5 hs, sscanfAux_scanset _ _ _ _ _ hne, hrun]
    simp [sscanfAux]
  simp only [parseUrl, e3, e2]
  simp [store]

/-- A path of more than 99 characters is cut to its first 99. -/
theorem parseUrl_long_path (s h p : List Char)
    (hs1 : s ≠ []) (hs5 : s.length ≤ 5) (hs : ∀ c ∈ s, c ≠ ':')
    (hh1 : h ≠ []) (hh99 : h.length ≤ 99) (hh : ∀ c ∈ h, c ≠ '/')
    (hlen : 99 < p.length) (hc : ∀ c ∈ p, c ≠ '\n') :
    parseUrl (s ++ "://".toList ++ h ++ "/".toList ++ p)
      = some { protocol := some s, host := some h, path := p.take 99 } := by
  have hrun : scanRun '\n' 99 p = (p.take 99, p.drop 99) :=
    scanRun_take '\n' 99 p (by omega) (fun c hm => hc c (List.mem_of_mem_take hm))
  have hne : (scanRun '\n' 99 p).1 ≠ [] := by
    rw [hrun]
    exact take_ne_nil (by decide) hlen
  have hd := sscanfAux_head s h ('/' :: p) [Directive.lit '/', Directive.scanset 99 '\n']
    hs1 hs5 hs hh1 hh99 hh (Or.inr ⟨p, rfl⟩)
  have hurl : s ++ "://".toList ++ h ++ "/".toList ++ p = s ++ "://".toList ++ h ++ '/' :: p := by
    simp
  have e3 : sscanf (s ++ "://".toList ++ h ++ "/".toList ++ p) fmt3 = (3, [s, h, p.take 99]) := by
    rw [sscanf, fmt3, hurl, hd, sscanfAux_lit, sscanfAux_scanset _ _ _ _ _ hne, hrun]
    rfl
  simp only [parseUrl, e3]
  simp [store]

/-- Claim C15 fails as stated: the scheme `httpss`, of 6 characters, is not cut to
`https` but rejected; and with a host of 100 characters the host is cut to 99 but the
path `p` of the input is lost, the default path is returned. -/
theorem long_scheme_rejected :
    parseUrl "httpss://h/p".toList = none ∧
    parseUrl ("http".toList ++ "://".toList ++ List.replicate 100 'a' ++ "/p".toList)
      = some { protocol := some "http".toList, host := some ((List.replicate 100 'a').take 99),
               path := "/".toList } ∧
    "/".toList ≠ "p".toList :=
  ⟨by decide,
   parseUrl_long_host "http".toList (List.replicate 100 'a') "/p".toList (by decide) (by decide)
     (by decide) (by rw [List.length_replicate]; decide)
     (fun c hc => by rw [List.eq_of_mem_replicate hc]; decide),
   by decide⟩

/-- Claim C15, amended: with a scheme of 1 to 5 characters, a path of more than 99
characters is cut to its first 99, scheme and host being returned as in the input; a
host of more than 99 characters is cut to its first 99, the scheme being returned as
in the input and the path being then the default `"/"`, whatever follows the host; a
URL that starts with more than 5 characters other than `:` is rejected. -/
theorem url_bounds (s h : List Char)
    (hs1 : 1 ≤ s.length) (hs5 : s.length ≤ 5) (hs : ∀ c ∈ s, c ≠ ':')
    (hh1 : 1 ≤ h.length) (hh99 : h.length ≤ 99) (hh : ∀ c ∈ h, c ≠ '/') :
    (∀ p : List Char, 99 < p.length → (∀ c ∈ p, c ≠ '\n') →
      parseUrl (s ++ "://".toList ++ h ++ "/".toList ++ p)
        = some { protocol := some s, host := some h, path := p.take 99 }) ∧
    (∀ hl rest : List Char, 99 < hl.length → (∀ c ∈ hl, c ≠ '/') →
      parseUrl (s ++ "://".toList ++ hl ++ rest)
        = some { protocol := some s, host := some (hl.take 99), path := "/".toList }) ∧
    (∀ sl rest : List Char, 5 < sl.length → (∀ c ∈ sl, c ≠ ':') →
      parseUrl (sl ++ rest) = none) :=
  ⟨fun p hp hc => parseUrl_long_path s h p (ne_nil_of_one_le hs1) hs5 hs
      (ne_nil_of_one_le hh1) hh99 hh hp hc,
   fun hl rest hlen hc => parseUrl_long_host s hl rest (ne_nil_of_one_le hs1) hs5 hs hlen hc,
   fun sl rest hlen hc => parseUrl_long_scheme sl rest hlen hc⟩

theorem url_bounds_witness :
    parseUrl ("http".toList ++ "://".toList ++ "example.com".toList ++ "/".toList
        ++ List.replicate 100 'x')
      = some { protocol := some "http".toList, host := some "example.com".toList,
               path := (List.replicate 100 'x').take 99 } ∧
    parseUrl ("http".toList ++ "://".toList ++ List.replicate 100 'a' ++ "/p".toList)
      = some { protocol := some "http".toList, host := some ((List.replicate 100 'a').take 99),
               path := "/".toList } ∧
    parseUrl ("httpss".toList ++ "://h/p".toList) = none :=
  ⟨(url_bounds "http".toList "example.com".toList (by decide) (by decide) (by decide)
      (by decide) (by decide) (by decide)).1 (List.replicate 100 'x')
      (by rw [List.length_replicate]; decide)
      (fun c hc => by rw [List.eq_of_mem_replicate hc]; decide),
   (url_bounds "http".toList "example.com".toList (by decide) (by decide) (by decide)
      (by decide) (by decide) (by decide)).2.1 (List.replicate 100 'a') "/p".toList
      (by rw [List.length_replicate]; decide)
      (fun c hc => by rw [List.eq_of_mem_replicate hc]; decide),
   (url_bounds "http".toList "example.com".toList (by decide) (by decide) (by decide)
      (by decide) (by decide) (by decide)).2.2 "httpss".toList "://h/p".toList
      (by decide) (by decide)⟩

/-! ## The exact acceptance condition -/

/-- The characters of a run are all other than the excluded one. -/
theorem scanRun_not_mem (excl : Char) : ∀ (w : Nat) (inp : List Char),
    ∀ x ∈ (scanRun excl w inp).1, x ≠ excl := by
  intro w
  induction w with
  | zero => intro inp x hx; simp [scanRun] at hx
  | succ w ih =>
    intro inp x hx
    cases inp with
    | nil => simp [scanRun] at hx
    | cons c cs =>
      by_cases h : c = excl
      · simp [scanRun, h] at hx
      · simp only [scanRun, h, if_false, List.mem_cons] at hx
        rcases hx with rfl | hx
        · exact h
        · exact ih cs x hx

/-- A run is empty exactly when the input starts with the excluded character (or is
empty, or the width is 0). -/
theorem scanRun_head (excl : Char) (w : Nat) (c : Char) (cs : List Char) :
    (scanRun excl (w + 1) (c :: cs)).1 ≠ [] ↔ c ≠ excl := by
  by_cases h : c = excl <;> simp [scanRun, h]

/-- The URLs the program accepts, in the words of the property: 1 to 5 characters
other than `:`, then `://`, then a character other than `/`. -/
theorem accepted_shape (url : List Char) (ds : List Directive)
    (h2 : 2 ≤ (sscanfAux (fmt2 ++ ds) url []).1) :
    ∃ s c rest, url = s ++ "://".toList ++ c :: rest ∧ 1 ≤ s.length ∧ s.length ≤ 5 ∧
      (∀ x ∈ s, x ≠ ':') ∧ c ≠ '/' := by
  simp only [fmt2, List.cons_append, List.nil_append] at h2
  by_cases hm : (scanRun ':' 5 url).1 = []
  · exfalso
    cases url with
    | nil => simp [sscanfAux, inputFailure] at h2
    | cons x xs => simp [sscanfAux, hm] at h2
  · rw [sscanfAux_scanset _ _ _ _ _ hm] at h2
    have happ := scanRun_append ':' 5 url
    have hlen := scanRun_length ':' 5 url
    have hnot := scanRun_not_mem ':' 5 url
    generalize (scanRun ':' 5 url).1 = m at happ hlen hnot hm h2
    generalize (scanRun ':' 5 url).2 = r at happ h2
    have hm1 : 1 ≤ m.length := by
      rcases m with _ | ⟨a, as⟩
      · exact absurd rfl hm
      · simp
    rcases r with _ | ⟨y, _ | ⟨z, _ | ⟨u, us⟩⟩⟩
    · simp [sscanfAux, inputFailure] at h2
    · by_cases hy : y = ':' <;> simp [sscanfAux, inputFailure, hy] at h2
    · by_cases hy : y = ':' <;> by_cases hz : z = '/' <;>
        simp [sscanfAux, inputFailure, hy, hz] at h2
    · by_cases hy : y = ':'
      · by_cases hz : z = '/'
        · by_cases hu : u = '/'
          · subst hy hz hu
            simp only [sscanfAux_lit, List.nil_append] at h2
            rcases us with _ | ⟨c, rest⟩
            · simp [sscanfAux, inputFailure] at h2
            · by_cases hc : c = '/'
              · have hrun : (scanRun '/' 99 (c :: rest)).1 = [] := by
                  simp [scanRun, hc]
                simp [sscanfAux, hrun] at h2
              · refine ⟨m, c, rest, ?_, hm1, hlen, hnot, hc⟩
                rw [← happ]
                simp
          · simp [sscanfAux, hy, hz, hu] at h2
        · simp [sscanfAux, hy, hz] at h2
      · simp [sscanfAux, hy] at h2

/-- A URL of the accepted shape gets both conversions of the two-part format. -/
theorem sscanf_fmt2_accepts (s rest : List Char) (c : Char)
    (hs1 : 1 ≤ s.length) (hs5 : s.length ≤ 5) (hs : ∀ x ∈ s, x ≠ ':') (hc : c ≠ '/') :
    (sscanf (s ++ "://".toList ++ c :: rest) fmt2).1 = 2 := by
  have hne : (scanRun '/' 99 (c :: rest)).1 ≠ [] := (scanRun_head '/' 98 c rest).mpr hc
  rw [sscanf, fmt2, sscanfAux_scheme s _ _ (ne_nil_of_one_le hs1) hs5 hs,
    sscanfAux_scanset _ _ _ _ _ hne]
  rfl

/-- An empty host is not accepted: nothing, or a slash, after the separator. -/
theorem parseUrl_empty_host (s t : List Char)
    (hs1 : s ≠ []) (hs5 : s.length ≤ 5) (hs : ∀ x ∈ s, x ≠ ':')
    (ht : t = [] ∨ ∃ u, t = '/' :: u) : parseUrl (s ++ "://".toList ++ t) = none := by
  have key : ∀ ds, (sscanfAux (Directive.scanset 5 ':' :: Directive.lit ':' ::
      Directive.lit '/' :: Directive.lit '/' :: Directive.scanset 99 '/' :: ds)
      (s ++ "://".toList ++ t) []).1 = 1 := by
    intro ds
    rw [sscanfAux_scheme s _ _ hs1 hs5 hs]
    rcases ht with rfl | ⟨u, rfl⟩
    · simp [sscanfAux, inputFailure]
    · simp [sscanfAux, scanRun]
  have n3 : (sscanf (s ++ "://".toList ++ t) fmt3).1 ≠ 3 := by
    rw [sscanf, fmt3, fmt2]
    simp only [List.cons_append, List.nil_append, key]
    decide
  have n2 : (sscanf (s ++ "://".toList ++ t) fmt2).1 ≠ 2 := by
    rw [sscanf, fmt2, key]
    decide
  simp only [parseUrl, n3, n2, ne_eq, not_false_eq_true, if_true]

/-- An empty scheme is not accepted. -/
theorem parseUrl_empty_scheme (t : List Char) : parseUrl (':' :: t) = none := by
  have key : ∀ ds, (sscanfAux (Directive.scanset 5 ':' :: ds) (':' :: t) []).1 = 0 := by
    intro ds
    simp [sscanfAux, scanRun]
  have n3 : (sscanf (':' :: t) fmt3).1 ≠ 3 := by
    rw [sscanf, fmt3, fmt2]
    simp only [List.cons_append, key]
    decide
  have n2 : (sscanf (':' :: t) fmt2).1 ≠ 2 := by
    rw [sscanf, fmt2, key]
    decide
  simp only [parseUrl, n3, n2, ne_eq, not_false_eq_true, if_true]

/-- Claim C18: the decomposition of a URL succeeds exactly when the URL begins with 1
to 5 characters other than `:`, then `://`, then a character other than `/`; so an
empty scheme, a scheme of more than 5 characters and an empty host are rejected. -/
theorem url_accepted_iff (url : List Char) :
    ((parseUrl url).isSome = true ↔
      ∃ s c rest, url = s ++ "://".toList ++ c :: rest ∧ 1 ≤ s.length ∧ s.length ≤ 5 ∧
        (∀ x ∈ s, x ≠ ':') ∧ c ≠ '/') ∧
    (∀ t : List Char, parseUrl ("://".toList ++ t) = none) ∧
    (∀ sl rest : List Char, 5 < sl.length → (∀ x ∈ sl, x ≠ ':') →
      parseUrl (sl ++ rest) = none) ∧
    (∀ s t : List Char, 1 ≤ s.length → s.length ≤ 5 → (∀ x ∈ s, x ≠ ':') →
      parseUrl (s ++ "://".toList) = none ∧ parseUrl (s ++ ":///".toList ++ t) = none) := by
  refine ⟨⟨?_, ?_⟩, ?_, parseUrl_long_scheme, ?_⟩
  · intro hsome
    by_cases h3 : (sscanf url fmt3).1 = 3
    · exact accepted_shape url [Directive.lit '/', Directive.scanset 99 '\n']
        (by rw [sscanf, fmt3] at h3; rw [h3]; decide)
    · by_cases h2 : (sscanf url fmt2).1 = 2
      · exact accepted_shape url []
          (by rw [sscanf] at h2; rw [List.append_nil, h2])
      · simp [parseUrl, h3, h2] at hsome
  · rintro ⟨s, c, rest, rfl, hs1, hs5, hs, hc⟩
    have h2 := sscanf_fmt2_accepts s rest c hs1 hs5 hs hc
    by_cases h3 : (sscanf (s ++ "://".toList ++ c :: rest) fmt3).1 = 3
    · simp only [parseUrl, h3, ne_eq, not_true_eq_false, if_false, Option.isSome_some]
    · simp only [parseUrl, h3, h2, ne_eq, not_false_eq_true, if_true, not_true_eq_false,
        if_false, Option.isSome_some]
  · intro t
    exact parseUrl_empty_scheme _
  · intro s t hs1 hs5 hs
    constructor
    · have := parseUrl_empty_host s [] (ne_nil_of_one_le hs1) hs5 hs (Or.inl rfl)
      simpa using this
    · have := parseUrl_empty_host s ('/' :: t) (ne_nil_of_one_le hs1) hs5 hs (Or.inr ⟨t, rfl⟩)
      have e : s ++ ":///".toList ++ t = s ++ "://".toList ++ '/' :: t := by simp
      rw [e]
      exact this

/-! ## The request that is sent -/

theorem sentOf_append (a b : List Event) : sentOf (a ++ b) = sentOf a ++ sentOf b := by
  induction a with
  | nil => rfl
  | cons e t ih => cases e <;> simp [sentOf, ih]

theorem stdoutOf_append (a b : List Event) : stdoutOf (a ++ b) = stdoutOf a ++ stdoutOf b := by
  induction a with
  | nil => rfl
  | cons e t ih => cases e <;> simp [stdoutOf, ih]

theorem sentOf_echo (v : Bool) (req : CStr) : sentOf (echo v req) = [] := by
  cases v <;> rfl

theorem filter_isCall_echo (v : Bool) (req : CStr) :
    (echo v req).filter Event.isCall = [] := by
  cases v <;> rfl

/-- The request that is built starts with the request line and the `Host` header. -/
theorem buildRequest_head (M P H B T req : CStr) (h : buildRequest M P H B T = some req) :
    ∃ tail, req = M ++ " ".toList ++ P ++ " HTTP/1.1\r\n".toList ++ "Host: ".toList ++ H
      ++ "\r\n".toList ++ tail := by
  rw [buildRequest_eq_fit] at h
  rcases fit_cases BUFFER_SIZE (specRequest M P H B T) with f | f
  · rw [f] at h
    cases h
    refine ⟨(if B = [] then []
        else "Content-Length: ".toList ++ decimal B.length ++ "\r\n".toList)
      ++ (if B = [] ∨ T = [] then [] else "Content-Type: ".toList ++ T ++ "\r\n".toList)
      ++ "Connection: close\r\n\r\n".toList ++ B, ?_⟩
    have hsplit : " HTTP/1.1\r\nHost: ".toList = " HTTP/1.1\r\n".toList ++ "Host: ".toList := rfl
    simp only [specRequest, hsplit, List.append_assoc]
  · rw [f] at h
    cases h

/-- A run with a connected socket whose request fits sends exactly that request, once,
and ends with 0 or 7. -/
theorem main_sends (env : Env) (prog url : CStr) (flags : List CStr)
    (hconn : connects env url = true) (req : CStr) (hreq : requestOf url flags = some req) :
    ∃ r pre post, main env (prog :: url :: flags) = some r ∧
      r.trace = pre ++ echo (parseFlags defaultConfig flags).verbose req
        ++ Event.send req (env.sendRet req) :: post ∧
      pre = [Event.getaddrinfo (hostOf url) "80".toList true, Event.socket true,
        Event.connect true] ∧
      ((env.incoming = none ∧ r.exit = 7 ∧
          post = [Event.recv (BUFFER_SIZE - 1) none, perror env "recv".toList, Event.close,
            Event.freeaddrinfo]) ∨
       (∃ d, env.incoming = some d ∧ r.exit = 0 ∧
          post = [Event.recv (BUFFER_SIZE - 1) (some (d.take (BUFFER_SIZE - 1))),
            Event.stdout (cstr (d.take (BUFFER_SIZE - 1) ++ [NUL])), Event.close,
            Event.freeaddrinfo])) := by
  obtain ⟨b, p, h, hb, hp, hh, h1, h2, h3, h4⟩ := connects_parts env url hconn
  have hhost : hostOf url = h := by simp [hostOf, hb, hh]
  have hpath : pathOf url = b.path := by simp [pathOf, hb]
  have hreq2 := hreq
  rw [requestOf, hpath, hhost] at hreq2
  rw [hhost]
  rcases h5 : env.incoming with _ | d
  · have hm := transport_recv_fail env (parseFlags defaultConfig flags) p h b.path req
      h1 h2 h3 h4 hreq2 h5
    rw [← main_transport env prog url flags b p h hb hp hh] at hm
    refine ⟨_, [Event.getaddrinfo h "80".toList true, Event.socket true, Event.connect true],
      [Event.recv (BUFFER_SIZE - 1) none, perror env "recv".toList, Event.close,
        Event.freeaddrinfo], hm, ?_, rfl, Or.inl ⟨rfl, rfl, rfl⟩⟩
    simp only [List.append_assoc, List.cons_append, List.nil_append]
  · have hm := transport_ok env (parseFlags defaultConfig flags) p h b.path req d
      h1 h2 h3 h4 hreq2 h5
    rw [← main_transport env prog url flags b p h hb hp hh] at hm
    refine ⟨_, [Event.getaddrinfo h "80".toList true, Event.socket true, Event.connect true],
      [Event.recv (BUFFER_SIZE - 1) (some (d.take (BUFFER_SIZE - 1))),
        Event.stdout (cstr (d.take (BUFFER_SIZE - 1) ++ [NUL])), Event.close,
        Event.freeaddrinfo], hm, ?_, rfl, Or.inr ⟨d, rfl, rfl, rfl⟩⟩
    simp only [List.append_assoc, List.cons_append, List.nil_append]

/-- Claim C19: for a URL `s://h/` with nothing after the slash (`s` of 1 to 5 characters
other than `:`, `h` of 1 to 99 characters other than `/`) the three-part format does
not return 3, the two-part format returns 2, the decomposition is `s`, `h` and the
default path `"/"`, and a run that gets a connected socket and whose request fits
sends one request, which starts with `M / HTTP/1.1` for the method `M` of the run. -/
theorem trailing_slash_default_path (s h : List Char)
    (hs1 : 1 ≤ s.length) (hs5 : s.length ≤ 5) (hs : ∀ c ∈ s, c ≠ ':')
    (hh1 : 1 ≤ h.length) (hh99 : h.length ≤ 99) (hh : ∀ c ∈ h, c ≠ '/') :
    (sscanf (s ++ "://".toList ++ h ++ "/".toList) fmt3).1 ≠ 3 ∧
    (sscanf (s ++ "://".toList ++ h ++ "/".toList) fmt2).1 = 2 ∧
    parseUrl (s ++ "://".toList ++ h ++ "/".toList)
      = some { protocol := some s, host := some h, path := "/".toList } ∧
    ∀ (env : Env) (prog : CStr) (flags : List CStr),
      connects env (s ++ "://".toList ++ h ++ "/".toList) = true →
      (requestOf (s ++ "://".toList ++ h ++ "/".toList) flags).isSome = true →
      ∃ r tail, main env (prog :: (s ++ "://".toList ++ h ++ "/".toList) :: flags) = some r ∧
        sentOf r.trace = [(parseFlags defaultConfig flags).method ++ " / HTTP/1.1\r\n".toList
          ++ tail] := by
  have hs0 := ne_nil_of_one_le hs1
  have hh0 := ne_nil_of_one_le hh1
  have e3 : sscanf (s ++ "://".toList ++ h ++ "/".toList) fmt3 = (2, [s, h]) := by
    have hd := sscanfAux_head s h ['/'] [Directive.lit '/', Directive.scanset 99 '\n']
      hs0 hs5 hs hh0 hh99 hh (Or.inr ⟨[], rfl⟩)
    have hurl : s ++ "://".toList ++ h ++ "/".toList = s ++ "://".toList ++ h ++ ['/'] := rfl
    rw [sscanf, fmt3, hurl, hd]
    rfl
  have e2 : sscanf (s ++ "://".toList ++ h ++ "/".toList) fmt2 = (2, [s, h]) := by
    have hd := sscanfAux_head s h ['/'] [] hs0 hs5 hs hh0 hh99 hh (Or.inr ⟨[], rfl⟩)
    have hurl : s ++ "://".toList ++ h ++ "/".toList = s ++ "://".toList ++ h ++ ['/'] := rfl
    rw [List.append_nil] at hd
    rw [sscanf, hurl, hd]
    rfl
  have hparse : parseUrl (s ++ "://".toList ++ h ++ "/".toList)
      = some { protocol := some s, host := some h, path := "/".toList } := by
    simp only [parseUrl, e3, e2]
    simp [store]
  refine ⟨by rw [e3]; show (2 : Int) ≠ 3; decide, by rw [e2], hparse, ?_⟩
  intro env prog flags hconn hfit
  obtain ⟨req, hreq⟩ := Option.isSome_iff_exists.mp hfit
  obtain ⟨r, pre, post, hm, htrace, hpre, hpost⟩ := main_sends env prog _ flags hconn req hreq
  have hpath : pathOf (s ++ "://".toList ++ h ++ "/".toList) = "/".toList := by
    simp only [pathOf, hparse, Option.map, Option.getD]
  rw [requestOf, hpath] at hreq
  obtain ⟨tail, htail⟩ := buildRequest_head _ _ _ _ _ req hreq
  refine ⟨r, "Host: ".toList ++ hostOf (s ++ "://".toList ++ h ++ "/".toList)
    ++ "\r\n".toList ++ tail, hm, ?_⟩
  have hsent : sentOf r.trace = [req] := by
    rw [htrace, hpre]
    rcases hpost with ⟨-, -, hp⟩ | ⟨d, -, -, hp⟩ <;>
      · rw [hp]
        simp [sentOf_append, sentOf_echo, sentOf, perror]
  rw [hsent, htail]
  have hline : " / HTTP/1.1\r\n".toList = " ".toList ++ "/".toList ++ " HTTP/1.1\r\n".toList := rfl
  simp only [hline, List.append_assoc]

theorem trailing_slash_default_path_witness :
    (sscanf ("http".toList ++ "://".toList ++ "example.com".toList ++ "/".toList) fmt3).1 ≠ 3 ∧
    (sscanf ("http".toList ++ "://".toList ++ "example.com".toList ++ "/".toList) fmt2).1 = 2 ∧
    parseUrl ("http".toList ++ "://".toList ++ "example.com".toList ++ "/".toList)
      = some { protocol := some "http".toList, host := some "example.com".toList,
               path := "/".toList } ∧
    ∃ r tail, main stubServer ("client".toList ::
        ("http".toList ++ "://".toList ++ "example.com".toList ++ "/".toList) :: []) = some r ∧
      sentOf r.trace = [(parseFlags defaultConfig []).method ++ " / HTTP/1.1\r\n".toList
        ++ tail] :=
  ⟨(trailing_slash_default_path "http".toList "example.com".toList (by decide) (by decide)
      (by decide) (by decide) (by decide) (by decide)).1,
   (trailing_slash_default_path "http".toList "example.com".toList (by decide) (by decide)
      (by decide) (by decide) (by decide) (by decide)).2.1,
   (trailing_slash_default_path "http".toList "example.com".toList (by decide) (by decide)
      (by decide) (by decide) (by decide) (by decide)).2.2.1,
   (trailing_slash_default_path "http".toList "example.com".toList (by decide) (by decide)
      (by decide) (by decide) (by decide) (by decide)).2.2.2 stubServer "client".toList []
      (by decide) (by decide)⟩

/-! ## Verbose mode and the response buffer -/

/-- Claim C16: two runs on the same URL whose flags give the same method, body and
content type, with a connected socket and a request that fits: both have the same
events before the echo, hand the same request to `send`, have the same events after
it, which start with the `recv`, and the same exit code; between the two each run has
the echo of its own verbose flag, which is the one write `"Sending request:\n"`, the request, `"\n"` to standard
output when the flag is set and nothing when it is not; nothing else is written to
standard output before `send`. -/
theorem echo_only_in_verbose (env : Env) (prog url : CStr) (flags1 flags2 : List CStr)
    (hconn : connects env url = true) (hfit : (requestOf url flags1).isSome = true)
    (hM : (parseFlags defaultConfig flags1).method = (parseFlags defaultConfig flags2).method)
    (hD : (parseFlags defaultConfig flags1).data = (parseFlags defaultConfig flags2).data)
    (hT : (parseFlags defaultConfig flags1).content_type
      = (parseFlags defaultConfig flags2).content_type) :
    ∃ r1 r2 req pre post,
      main env (prog :: url :: flags1) = some r1 ∧
      main env (prog :: url :: flags2) = some r2 ∧
      r1.trace = pre ++ echo (parseFlags defaultConfig flags1).verbose req
        ++ Event.send req (env.sendRet req) :: post ∧
      r2.trace = pre ++ echo (parseFlags defaultConfig flags2).verbose req
        ++ Event.send req (env.sendRet req) :: post ∧
      echo true req = [Event.stdout ("Sending request:\n".toList ++ req ++ "\n".toList)] ∧
      echo false req = [] ∧
      stdoutOf pre = [] ∧
      (∃ res rest, post = Event.recv (BUFFER_SIZE - 1) res :: rest) ∧
      sentOf r1.trace = [req] ∧ sentOf r2.trace = [req] ∧
      r1.trace.filter Event.isCall = r2.trace.filter Event.isCall ∧
      r1.exit = r2.exit := by
  obtain ⟨req, hreq⟩ := Option.isSome_iff_exists.mp hfit
  have hreq2 : requestOf url flags2 = some req := by
    rw [← hreq]
    simp only [requestOf, hM, hD, hT]
  obtain ⟨r1, pre1, post1, hm1, ht1, hpre1, hpost1⟩ :=
    main_sends env prog url flags1 hconn req hreq
  obtain ⟨r2, pre2, post2, hm2, ht2, hpre2, hpost2⟩ :=
    main_sends env prog url flags2 hconn req hreq2
  have hposts : post1 = post2 ∧ r1.exit = r2.exit ∧ sentOf post1 = [] ∧
      ∃ res rest, post1 = Event.recv (BUFFER_SIZE - 1) res :: rest := by
    rcases hpost1 with ⟨i1, e1, p1⟩ | ⟨d1, i1, e1, p1⟩ <;>
      rcases hpost2 with ⟨i2, e2, p2⟩ | ⟨d2, i2, e2, p2⟩
    · exact ⟨by rw [p1, p2], by rw [e1, e2], by rw [p1]; simp [sentOf, perror],
        _, _, p1⟩
    · rw [i1] at i2
      cases i2
    · rw [i1] at i2
      cases i2
    · rw [i1] at i2
      cases i2
      exact ⟨by rw [p1, p2], by rw [e1, e2], by rw [p1]; simp [sentOf], _, _, p1⟩
  obtain ⟨hpp, hee, hsp, hrecv⟩ := hposts
  subst hpp
  have hpre : pre2 = pre1 := by rw [hpre1, hpre2]
  subst hpre
  refine ⟨r1, r2, req, pre2, post1, hm1, hm2, ht1, ht2, rfl, rfl, ?_, hrecv, ?_, ?_, ?_, hee⟩
  · rw [hpre2]
    rfl
  · rw [ht1, hpre2]
    simp [sentOf_append, sentOf_echo, sentOf, hsp]
  · rw [ht2, hpre2]
    simp [sentOf_append, sentOf_echo, sentOf, hsp]
  · rw [ht1, ht2]
    simp only [List.filter_append, filter_isCall_echo]

theorem echo_only_in_verbose_witness :
    ∃ r1 r2 req pre post,
      main stubServer ("client".toList :: "http://example.com".toList :: []) = some r1 ∧
      main stubServer ("client".toList :: "http://example.com".toList :: ["-v".toList])
        = some r2 ∧
      r1.trace = pre ++ echo (parseFlags defaultConfig []).verbose req
        ++ Event.send req (stubServer.sendRet req) :: post ∧
      r2.trace = pre ++ echo (parseFlags defaultConfig ["-v".toList]).verbose req
        ++ Event.send req (stubServer.sendRet req) :: post ∧
      echo true req = [Event.stdout ("Sending request:\n".toList ++ req ++ "\n".toList)] ∧
      echo false req = [] ∧
      stdoutOf pre = [] ∧
      (∃ res rest, post = Event.recv (BUFFER_SIZE - 1) res :: rest) ∧
      sentOf r1.trace = [req] ∧ sentOf r2.trace = [req] ∧
      r1.trace.filter Event.isCall = r2.trace.filter Event.isCall ∧
      r1.exit = r2.exit :=
  echo_only_in_verbose stubServer "client".toList "http://example.com".toList [] ["-v".toList]
    (by decide) (by decide) (by decide) (by decide) (by decide)

theorem not_recv_mem_echo (v : Bool) (req : CStr) (cap : Nat) (res : Option (List Char)) :
    Event.recv cap res ∉ echo v req := by
  cases v <;> simp [echo]

/-- Every `recv` of a run asks for `BUFFER_SIZE - 1` bytes and returns no more. -/
theorem recv_bounded (env : Env) (argv : List CStr) (r : Run) (hr : main env argv = some r)
    (cap : Nat) (res : Option (List Char)) (hmem : Event.recv cap res ∈ r.trace) :
    cap = BUFFER_SIZE - 1 ∧ res = recv env (BUFFER_SIZE - 1) := by
  rcases argv with _ | ⟨prog, _ | ⟨url, flags⟩⟩
  · cases hr
  · simp only [main, Option.some.injEq] at hr
    subst hr
    simp at hmem
  · rcases main_cases env prog url flags (main_some_fits env prog url flags r hr)
      with ⟨-, hm⟩ | ⟨b, p, h, -, -, -, hcase⟩
    · rw [hm] at hr
      cases hr
      simp at hmem
    · have ne := not_recv_mem_echo (parseFlags defaultConfig flags).verbose
      rcases hcase with ⟨-, hm⟩ | ⟨-, -, hm⟩ | ⟨-, -, -, hm⟩ | ⟨-, -, -, -, hm⟩ |
        ⟨-, -, -, -, h5, req, -, hm⟩ | ⟨-, -, -, -, d, req, h5, -, hm⟩ <;>
      · rw [hm] at hr
        cases hr
        simp only [List.mem_cons, List.mem_append, List.mem_singleton, perror,
          Event.recv.injEq, reduceCtorEq, List.not_mem_nil, or_false, false_or, ne]
          at hmem
        try exact ⟨hmem.1, by rw [hmem.2, recv, h5]; rfl⟩

/-! ## Header lines of the request that is built -/

/-- Claim C17: `recv` is asked for `BUFFER_SIZE - 1`, that is 9,999, bytes in every run,
and what it returns is at most 9,999 bytes long; in a run that gets a connected socket
and whose request fits, for the bytes `d` that `recv` returns, both writes of the
program to `response` stay inside the array: the array keeps its 10,000 bytes, the
terminator is written at index `d.length`, below 10,000, the bytes before it are the
bytes of `d`, and the print right after the `recv` reads this terminated array. -/
theorem response_in_bounds (env : Env) (prog url : CStr) (flags : List CStr) (d : List Char)
    (hconn : connects env url = true) (hfit : (requestOf url flags).isSome = true)
    (hd : recv env (BUFFER_SIZE - 1) = some d) :
    BUFFER_SIZE - 1 = 9999 ∧
    d.length ≤ 9999 ∧
    (∀ (argv : List CStr) (r : Run), main env argv = some r →
      ∀ cap res, Event.recv cap res ∈ r.trace → cap = 9999 ∧ res = some d) ∧
    ∃ buf text pre, response env d = some buf ∧ printfS buf = some text ∧
      main env (prog :: url :: flags)
        = some { trace := pre ++ [Event.recv 9999 (some d), Event.stdout text, Event.close,
                   Event.freeaddrinfo],
                 exit := 0 } ∧
      buf.size = 10000 ∧ d.length < buf.size ∧
      (∀ i, i < d.length → d[i]? = some (buf.byte i)) ∧
      buf.byte d.length = NUL := by
  obtain ⟨b, p, h, hb, hp, hh, h1, h2, h3, h4⟩ := connects_parts env url hconn
  obtain ⟨req, hreq⟩ := Option.isSome_iff_exists.mp hfit
  have hhost : hostOf url = h := by simp [hostOf, hb, hh]
  have hpath : pathOf url = b.path := by simp [pathOf, hb]
  rw [requestOf, hpath, hhost] at hreq
  rcases h5 : env.incoming with _ | d0
  · simp [recv, h5] at hd
  · have hdd : d = d0.take (BUFFER_SIZE - 1) := by
      simp only [recv, h5, Option.map, Option.some.injEq] at hd
      exact hd.symm
    have hlen : d.length ≤ BUFFER_SIZE - 1 := by
      rw [hdd, List.length_take]
      exact Nat.min_le_left _ _
    have hlen2 : d.length ≤ 9999 := hlen
    refine ⟨rfl, hlen2, ?_, _, _, [Event.getaddrinfo h "80".toList true, Event.socket true,
        Event.connect true] ++ echo (parseFlags defaultConfig flags).verbose req
        ++ [Event.send req (env.sendRet req)],
      response_eq env d hlen, printfS_response env d hlen, ?_, rfl, ?_, ?_, ?_⟩
    · intro argv r hr cap res hmem
      obtain ⟨e1, e2⟩ := recv_bounded env argv r hr cap res hmem
      exact ⟨e1, by rw [e2, hd]⟩
    · rw [main_transport env prog url flags b p h hb hp hh,
        transport_ok env _ p h _ req d0 h1 h2 h3 h4 hreq h5, ← hdd]
      simp only [List.append_assoc, List.cons_append, List.nil_append]
      rfl
    · show d.length < 10000
      omega
    · intro i hi
      have hne : ¬ (i = d.length) := by omega
      simp only [hne, if_false]
      rw [List.getD_eq_getElem _ _ hi, List.getElem?_eq_getElem hi]
    · simp

theorem response_in_bounds_witness :
    BUFFER_SIZE - 1 = 9999 ∧
    ("HTTP/1.1 200 OK\r\n\r\nOK".toList).length ≤ 9999 ∧
    (∀ (argv : List CStr) (r : Run), main stubServer argv = some r →
      ∀ cap res, Event.recv cap res ∈ r.trace →
        cap = 9999 ∧ res = some "HTTP/1.1 200 OK\r\n\r\nOK".toList) ∧
    ∃ buf text pre, response stubServer "HTTP/1.1 200 OK\r\n\r\nOK".toList = some buf ∧
      printfS buf = some text ∧
      main stubServer ("client".toList :: "http://example.com".toList :: [])
        = some { trace := pre ++ [Event.recv 9999 (some "HTTP/1.1 200 OK\r\n\r\nOK".toList),
                   Event.stdout text, Event.close, Event.freeaddrinfo],
                 exit := 0 } ∧
      buf.size = 10000 ∧ ("HTTP/1.1 200 OK\r\n\r\nOK".toList).length < buf.size ∧
      (∀ i, i < ("HTTP/1.1 200 OK\r\n\r\nOK".toList).length →
        ("HTTP/1.1 200 OK\r\n\r\nOK".toList)[i]? = some (buf.byte i)) ∧
      buf.byte ("HTTP/1.1 200 OK\r\n\r\nOK".toList).length = NUL :=
  response_in_bounds stubServer "client".toList "http://example.com".toList []
    "HTTP/1.1 200 OK\r\n\r\nOK".toList (by decide) (by decide) (by decide)

end Curl
